import Mathlib

/-!
Shallow embedding of the WEB_PROGRAMS_2 compiler core (`src/compiler.js`) in Lean 4,
together with theorems about the claims of its specification.

The JavaScript compiler is a pipeline
`tokenize → parse → validateSemantics → generateBytecode → assembleBinary`
plus a second front end `generateNetworkBytecode` for NetBots graphs.
Every definition below is translated from the JavaScript source.  Recursive
JavaScript loops and recursive-descent functions are modelled with an explicit
fuel parameter (structural recursion on `Nat`) so that every definition is
executable by the kernel; the JavaScript recursion is unbounded, and fuel
exhaustion is modelled by the distinguished error `JsErr.fuel`.
-/

set_option maxRecDepth 4000

/-- JavaScript numbers: we model the rationally-representable doubles exactly as
rationals and keep `NaN` as a separate point.  (The compiler only moves these
values around and compares them for constant-pool deduplication; `Map` keys use
SameValueZero, under which `NaN` equals `NaN`, so `DecidableEq` matches.) -/
inductive JsNum where
  | num (q : Rat)
  | nan
deriving DecidableEq, Repr

/-- Values that can enter the constant pool: strings, numbers, booleans, `null`,
`undefined`, bigints, and the NetBots block-descriptor objects
`\x7b type, config \x7d` (whose `config` we model as a string-valued record,
which is the shape the graph front end actually reads). -/
inductive JsVal where
  | vstr (s : String)
  | vnum (n : JsNum)
  | vbool (b : Bool)
  | vnull
  | vundef
  | vbig (i : Int)
  | vobj (btype : String) (config : List (String × String))
deriving DecidableEq, Repr

/-- Errors surfaced by the compiler.  `err` is `throw new Error(msg)`;
`unexpectedToken` is the parser's `Unexpected token: JSON.stringify(tok)`
(carried structurally as the token's type/value instead of serialized JSON);
`typeErr` is a dynamic JavaScript `TypeError`; `fuel` is the model's
recursion bound (never raised by runs with enough fuel). -/
inductive JsErr where
  | err (msg : String)
  | unexpectedToken (ttype : String) (tval : String)
  | typeErr (msg : String)
  | refErr (msg : String)
  | fuel
deriving DecidableEq, Repr

/-- Tokens, one constructor per `type` string produced by `tokenize`.
`templateExpr` carries the recursively tokenized interpolation body. -/
inductive Token where
  | identifier (v : String)
  | keyword (v : String)
  | number (v : JsNum)
  | bigintTok (v : Int)
  | stringTok (v : String)
  | template (v : String)
  | templateHead (v : String)
  | templateMid (v : String)
  | templateTail (v : String)
  | templateExpr (toks : List Token)
  | operator (v : String)
  | punctuation (v : String)
  | eof
deriving Repr

/-- The JavaScript token's `type` field. -/
def Token.ttype : Token → String
  | .identifier _ => "IDENTIFIER"
  | .keyword _ => "KEYWORD"
  | .number _ => "NUMBER"
  | .bigintTok _ => "BIGINT"
  | .stringTok _ => "STRING"
  | .template _ => "TEMPLATE"
  | .templateHead _ => "TEMPLATE_HEAD"
  | .templateMid _ => "TEMPLATE_MID"
  | .templateTail _ => "TEMPLATE_TAIL"
  | .templateExpr _ => "TEMPLATE_EXPR"
  | .operator _ => "OPERATOR"
  | .punctuation _ => "PUNCTUATION"
  | .eof => "EOF"

/-- The token's `value` field when it is a string (identifier spellings,
keywords, string literals, template chunks, operators, punctuation). -/
def Token.strVal : Token → String
  | .identifier v => v
  | .keyword v => v
  | .stringTok v => v
  | .template v => v
  | .templateHead v => v
  | .templateMid v => v
  | .templateTail v => v
  | .operator v => v
  | .punctuation v => v
  | _ => ""

/-- JavaScript `tok.value === s` for a string `s`: true only when the token's
value is that string (numbers, bigints, nested token lists and the absent
`EOF` value never strictly equal a string). -/
def Token.valueIsStr : Token → String → Bool
  | .identifier v, s => v = s
  | .keyword v, s => v = s
  | .stringTok v, s => v = s
  | .template v, s => v = s
  | .templateHead v, s => v = s
  | .templateMid v, s => v = s
  | .templateTail v, s => v = s
  | .operator v, s => v = s
  | .punctuation v, s => v = s
  | _, _ => false

-- ==================== LEXICAL ANALYZER ====================

/-- The fixed reserved-word set `KEYWORDS` of the lexer (note `default`
appears twice in the source array; a `Set` collapses it). -/
def KEYWORDS : List String :=
  [ "if", "else", "while", "for", "function", "return",
    "var", "let", "const", "true", "false", "null",
    "import", "export", "from", "default", "as",
    "class", "extends", "super", "constructor",
    "try", "catch", "finally", "throw", "new", "this",
    "typeof", "instanceof", "void", "delete", "in",
    "switch", "case", "default", "break", "continue",
    "async", "await", "yield", "of", "get", "set",
    "static", "implements", "interface", "package", "private",
    "protected", "public", "abstract", "enum", "type",
    "namespace", "module", "declare", "keyof", "readonly" ]

/-- The operator set `OPERATORS`, already stably sorted by descending length
exactly as `Array.from(OPERATORS).sort((a, b) => b.length - a.length)`
produces it (JavaScript's sort is stable, so ties keep insertion order). -/
def sortedOperators : List String :=
  [ ">>>=",
    "===", "!==", ">>>", "...", "**=", "<<=", ">>=",
    "==", "!=", "<=", ">=", "&&", "||", "<<", ">>",
    "+=", "-=", "*=", "/=", "%=", "++", "--", "->",
    "=>", "??", "?.", "**", "&=", "|=", "^=",
    "+", "-", "*", "/", "%", "=", "<", ">", "!", "&",
    "|", "^", "~", "?", ":" ]

/-- The punctuation set. -/
def PUNCTUATION : List String :=
  ["\x7b", "\x7d", "[", "]", "(", ")", ";", ",", ".", "?", ":"]

/-- `/\s/.test(ch)` restricted to the ASCII whitespace the compiler meets. -/
def isWsChar (c : Char) : Bool :=
  c = ' ' || c = '\t' || c = '\n' || c = '\r' || c = '\x0b' || c = '\x0c'

def isDigitChar (c : Char) : Bool := '0' ≤ c && c ≤ '9'

def isHexChar (c : Char) : Bool :=
  isDigitChar c || ('a' ≤ c && c ≤ 'f') || ('A' ≤ c && c ≤ 'F')

def isBinChar (c : Char) : Bool := c = '0' || c = '1'

def isOctChar (c : Char) : Bool := '0' ≤ c && c ≤ '7'

/-- `/[a-zA-Z_$]/` -/
def isIdentStart (c : Char) : Bool :=
  ('a' ≤ c && c ≤ 'z') || ('A' ≤ c && c ≤ 'Z') || c = '_' || c = '$'

/-- `/[a-zA-Z0-9_$]/` -/
def isIdentChar (c : Char) : Bool := isIdentStart c || isDigitChar c

/-- Digit value for radix parsing. -/
def digitVal (c : Char) : Nat :=
  if isDigitChar c then c.toNat - '0'.toNat
  else if 'a' ≤ c && c ≤ 'z' then c.toNat - 'a'.toNat + 10
  else if 'A' ≤ c && c ≤ 'Z' then c.toNat - 'A'.toNat + 10
  else 99

/-- Parse a longest prefix of digits of the given radix; `none` when there is
no digit at all. -/
def parseDigitsAux (radix : Nat) : List Char → Nat → Nat
  | c :: rest, acc =>
      if digitVal c < radix then parseDigitsAux radix rest (acc * radix + digitVal c)
      else acc
  | [], acc => acc

def hasRadixDigit (radix : Nat) : List Char → Bool
  | c :: _ => digitVal c < radix
  | [] => false

/-- `parseInt(s, radix)` for the radixes 2, 8, 10, 16 the lexer uses: optional
sign, an optional `0x`/`0X` prefix only when the radix is 16, then the longest
digit prefix; `NaN` when no digit is consumed.  (This is why the source's
`parseInt('0b101', 2)` and `parseInt('0o17', 8)` evaluate to `0`: the `b`/`o`
stops the scan after the leading `0`.) -/
def jsParseInt (radix : Nat) (s : String) : JsNum :=
  let cs := s.data
  let (neg, cs) : Bool × List Char :=
    match cs with
    | '-' :: t => (true, t)
    | '+' :: t => (false, t)
    | _ => (false, cs)
  let cs :=
    if radix = 16 then
      match cs with
      | '0' :: x :: t => if x = 'x' || x = 'X' then t else cs
      | _ => cs
    else cs
  if hasRadixDigit radix cs then
    let v := parseDigitsAux radix cs 0
    .num (if neg then -(v : Rat) else (v : Rat))
  else .nan

/-- Longest-prefix decimal scan used by `jsParseFloat`: integer digits,
optional fraction, optional exponent (an `e` not followed by a digit is
ignored). -/
def jsParseFloat (s : String) : JsNum :=
  let cs := s.data
  let (neg, cs) : Bool × List Char :=
    match cs with
    | '-' :: t => (true, t)
    | '+' :: t => (false, t)
    | _ => (false, cs)
  let intPart := cs.takeWhile isDigitChar
  let rest := cs.dropWhile isDigitChar
  let (fracPart, rest) : List Char × List Char :=
    match rest with
    | '.' :: t => (t.takeWhile isDigitChar, t.dropWhile isDigitChar)
    | _ => ([], rest)
  if intPart.isEmpty && fracPart.isEmpty then .nan
  else
    let mantissa : Rat :=
      (parseDigitsAux 10 intPart 0 : Rat) +
        (parseDigitsAux 10 fracPart 0 : Rat) / ((10 : Rat) ^ fracPart.length)
    let expVal : Int :=
      match rest with
      | e :: t =>
        if e = 'e' || e = 'E' then
          let (eneg, t) : Bool × List Char :=
            match t with
            | '-' :: t2 => (true, t2)
            | '+' :: t2 => (false, t2)
            | _ => (false, t)
          if hasRadixDigit 10 t then
            let v := (parseDigitsAux 10 (t.takeWhile isDigitChar) 0 : Int)
            if eneg then -v else v
          else 0
        else 0
      | [] => 0
    let scaled : Rat :=
      if expVal ≥ 0 then mantissa * (10 : Rat) ^ expVal.toNat
      else mantissa / (10 : Rat) ^ (-expVal).toNat
    .num (if neg then -scaled else scaled)

/-- `BigInt(s)`: the whole string must be a valid integer literal (decimal or
`0x`/`0b`/`0o` prefixed); otherwise a `SyntaxError` is thrown. -/
def jsBigInt (s : String) : Option Int :=
  let cs := s.data
  let (neg, cs) : Bool × List Char :=
    match cs with
    | '-' :: t => (true, t)
    | '+' :: t => (false, t)
    | _ => (false, cs)
  let parseAll (radix : Nat) (ds : List Char) : Option Int :=
    if ds ≠ [] && ds.all (fun c => digitVal c < radix) then
      some (if neg then -(parseDigitsAux radix ds 0 : Int) else (parseDigitsAux radix ds 0 : Int))
    else none
  match cs with
  | '0' :: 'x' :: t => parseAll 16 t
  | '0' :: 'X' :: t => parseAll 16 t
  | '0' :: 'b' :: t => parseAll 2 t
  | '0' :: 'B' :: t => parseAll 2 t
  | '0' :: 'o' :: t => parseAll 8 t
  | '0' :: 'O' :: t => parseAll 8 t
  | _ => parseAll 10 cs

/-- The string-literal scanner (the `"` / `'` branch): translates the escapes
`\n \t \r` and keeps any other escaped character literally; `none` means the
quote was never closed (`Unterminated string`). -/
def scanString (quote : Char) (acc : String) : List Char → Option (String × List Char)
  | [] => none
  | '\\' :: rest =>
      match rest with
      | [] => none
      | esc :: rest' =>
          let c :=
            if esc = 'n' then '\n'
            else if esc = 't' then '\t'
            else if esc = 'r' then '\r'
            else esc
          scanString quote (acc.push c) rest'
  | c :: rest =>
      if c = quote then some (acc, rest)
      else scanString quote (acc.push c) rest

/-- The interpolation scanner: collect characters until the matching `\x7d`,
tracking brace depth; `none` when input ends first
(`Unterminated template interpolation`). -/
def scanInterp (depth : Nat) (acc : String) : List Char → Option (String × List Char)
  | [] => none
  | c :: rest =>
      if c = '\x7b' then scanInterp (depth + 1) (acc.push c) rest
      else if c = '\x7d' then
        if depth = 0 then some (acc, rest)
        else scanInterp (depth - 1) (acc.push c) rest
      else scanInterp depth (acc.push c) rest

/-- The block-comment skip: `while (pos < len && !(src[pos] === '*' &&
src[pos+1] === '/')) pos++` followed by `pos += 2` (which silently runs past
the end of an unclosed comment). -/
def skipBlockComment : List Char → List Char
  | [] => []
  | '*' :: '/' :: rest => rest
  | _ :: rest => skipBlockComment rest

/-- Is `*/` present anywhere in the remaining characters? -/
def hasCommentClose : List Char → Bool
  | [] => false
  | '*' :: '/' :: _ => true
  | _ :: rest => hasCommentClose rest

/-- The line-comment skip: `while (pos < len && source[pos] !== '\n') pos++`.
The newline itself is left for the whitespace branch. -/
def skipLineComment : List Char → List Char
  | [] => []
  | '\n' :: rest => '\n' :: rest
  | _ :: rest => skipLineComment rest

/-- The two mutually recursive phases of `tokenize`: the main scanning loop
(`run`) and the template-literal loop (`tmpl`).  Both take the current
position (for error messages), the remaining characters and the tokens
accumulated so far. -/
structure TokFns where
  run : Nat → List Char → List Token → Except JsErr (List Token)
  tmpl : Bool → String → Nat → List Char → List Token → Except JsErr (List Token)

/-- Base layer: with no fuel left only the loop-exit cases are available. -/
def tokBase : TokFns where
  run := fun _ src toks =>
    match src with
    | [] => .ok (toks ++ [Token.eof])
    | _ => .error .fuel
  tmpl := fun _ _ _ src _ =>
    match src with
    | [] => .error (.err "Unterminated template literal")
    | _ => .error .fuel

/-- The number-scanning branch of the main loop (hex, binary, octal and
decimal literals, `n` bigint suffixes, and the exponent form). -/
def tokNumber (T : TokFns) (pos : Nat) (c : Char) (rest : List Char)
    (toks : List Token) : Except JsErr (List Token) :=
  let src := c :: rest
    if c = '0' && rest.head? = some 'x' then
      let digits := (rest.tail).takeWhile isHexChar
      let rest' := (rest.tail).dropWhile isHexChar
      let numStr := "0x" ++ String.mk digits
      if rest'.head? = some 'n' then
        match jsBigInt numStr with
        | some i =>
            T.run (pos + numStr.length + 1) rest'.tail (toks ++ [Token.bigintTok i])
        | none => .error (.err "Cannot convert to a BigInt")
      else
        T.run (pos + numStr.length) rest' (toks ++ [Token.number (jsParseInt 16 numStr)])
    else if c = '0' && rest.head? = some 'b' then
      let digits := (rest.tail).takeWhile isBinChar
      let rest' := (rest.tail).dropWhile isBinChar
      let numStr := "0b" ++ String.mk digits
      if rest'.head? = some 'n' then
        match jsBigInt numStr with
        | some i =>
            T.run (pos + numStr.length + 1) rest'.tail (toks ++ [Token.bigintTok i])
        | none => .error (.err "Cannot convert to a BigInt")
      else
        T.run (pos + numStr.length) rest' (toks ++ [Token.number (jsParseInt 2 numStr)])
    else if c = '0' && rest.head? = some 'o' then
      let digits := (rest.tail).takeWhile isOctChar
      let rest' := (rest.tail).dropWhile isOctChar
      let numStr := "0o" ++ String.mk digits
      if rest'.head? = some 'n' then
        match jsBigInt numStr with
        | some i =>
            T.run (pos + numStr.length + 1) rest'.tail (toks ++ [Token.bigintTok i])
        | none => .error (.err "Cannot convert to a BigInt")
      else
        T.run (pos + numStr.length) rest' (toks ++ [Token.number (jsParseInt 8 numStr)])
    else
      -- decimal scan over /[0-9.]/, then an optional exponent
      let body := src.takeWhile (fun ch => isDigitChar ch || ch = '.')
      let afterBody := src.dropWhile (fun ch => isDigitChar ch || ch = '.')
      let isFloatBody := body.any (· = '.')
      let (numChars, restNum, isFloat) : List Char × List Char × Bool :=
        match afterBody with
        | e :: t =>
          if e = 'e' || e = 'E' then
            let (sgn, t') : List Char × List Char :=
              match t with
              | s :: t2 => if s = '+' || s = '-' then ([s], t2) else ([], t)
              | [] => ([], t)
            let expDigits := t'.takeWhile isDigitChar
            (body ++ [e] ++ sgn ++ expDigits, t'.dropWhile isDigitChar, true)
          else (body, afterBody, isFloatBody)
        | [] => (body, afterBody, isFloatBody)
      let numStr := String.mk numChars
      if restNum.head? = some 'n' then
        match jsBigInt numStr with
        | some i =>
            T.run (pos + numStr.length + 1) restNum.tail (toks ++ [Token.bigintTok i])
        | none => .error (.err "Cannot convert to a BigInt")
      else
        let num := if isFloat then jsParseFloat numStr else jsParseInt 10 numStr
        match num with
        | .nan => .error (.err ("Invalid number: " ++ numStr))
        | _ => T.run (pos + numStr.length) restNum (toks ++ [Token.number num])

/-- One step of the main scanning loop, parametric in the next layer `T`.
Every loop iteration of the JavaScript `while (pos < len)` (and of the inner
template loop, and every recursive tokenization of an interpolation body)
descends into `T`. -/
def tokRun (T : TokFns) : Nat → List Char → List Token → Except JsErr (List Token)
  | _, [], toks => .ok (toks ++ [Token.eof])
  | pos, c :: rest, toks =>
          let src := c :: rest
          -- Whitespace
          if isWsChar c then T.run (pos + 1) rest toks
          -- Comments
          else if c = '/' && rest.head? = some '/' then
            T.run (pos + (src.length - (skipLineComment rest).length))
              (skipLineComment rest) toks
          else if c = '/' && rest.head? = some '*' then
            T.run (pos + (src.length - (skipBlockComment rest.tail).length))
              (skipBlockComment rest.tail) toks
          -- Strings
          else if c = '"' || c = '\'' then
            match scanString c "" rest with
            | none => .error (.err "Unterminated string")
            | some (value, rest') =>
                T.run (pos + (src.length - rest'.length)) rest'
                  (toks ++ [Token.stringTok value])
          -- Template literals
          else if c = '`' then
            T.tmpl true "" (pos + 1) rest toks
          -- Numbers
          else if isDigitChar c || (c = '.' && (rest.head?.map isDigitChar).getD false) then
            tokNumber T pos c rest toks
          -- Identifiers & keywords
          else if isIdentStart c then
            let identChars := src.takeWhile isIdentChar
            let rest' := src.dropWhile isIdentChar
            let ident := String.mk identChars
            if KEYWORDS.contains ident then
              T.run (pos + ident.length) rest' (toks ++ [Token.keyword ident])
            else
              T.run (pos + ident.length) rest' (toks ++ [Token.identifier ident])
          else
            -- Multi-char operators, longest first
            match sortedOperators.find? (fun op => op.data.isPrefixOf src) with
            | some op =>
                T.run (pos + op.length) (src.drop op.length) (toks ++ [Token.operator op])
            | none =>
              -- Punctuation
              if PUNCTUATION.contains (String.mk [c]) then
                T.run (pos + 1) rest (toks ++ [Token.punctuation (String.mk [c])])
              else
                .error (.err ("Unexpected character '" ++ String.mk [c] ++ "' at position "
                  ++ toString pos))
/-- One step of the template-literal loop, parametric in the next layer. -/
def tokTmpl (T : TokFns) : Bool → String → Nat → List Char → List Token →
    Except JsErr (List Token)
  | _, _, _, [], _ => .error (.err "Unterminated template literal")
  | isHead, value, pos, c :: rest, toks =>
          if c = '\\' then
            match rest with
            | [] => .error (.err "Unterminated template literal")
            | esc :: rest' =>
                let ch :=
                  if esc = 'n' then '\n'
                  else if esc = 't' then '\t'
                  else if esc = 'r' then '\r'
                  else esc
                T.tmpl isHead (value.push ch) (pos + 2) rest' toks
          else if c = '$' && rest.head? = some '\x7b' then
            let toks' := toks ++
              [if isHead then Token.templateHead value else Token.templateMid value]
            match scanInterp 0 "" rest.tail with
            | none => .error (.err "Unterminated template interpolation")
            | some (exprSource, rest') => do
                let subTokens ← T.run 0 exprSource.data []
                T.tmpl false "" (pos + 2 + exprSource.length + 1) rest'
                  (toks' ++ [Token.templateExpr subTokens.dropLast])
          else if c = '`' then
            T.run (pos + 1) rest
              (toks ++ [if isHead then Token.template value else Token.templateTail value])
          else
            T.tmpl isHead (value.push c) (pos + 1) rest toks

/-- The fuel tower of `tokenize` steps. -/
def mkTok : Nat → TokFns
  | 0 => tokBase
  | f + 1 => { run := tokRun (mkTok f), tmpl := tokTmpl (mkTok f) }

/-- `tokenize(source)`: run the scanner with ample fuel (every fuel layer
consumes at least one source character or closes a template chunk, so
`4 * length + 16` always suffices for terminating runs). -/
def tokenize (source : String) : Except JsErr (List Token) :=
  (mkTok (source.length * 4 + 16)).run 0 source.data []

-- ==================== PARSER ====================

/-- Import specifiers, one constructor per specifier `type` string. -/
inductive ImpSpec where
  | defaultSpec (lcl : String)
  | named (imported : String) (lcl : String)
  | nsSpec (lcl : String)
deriving DecidableEq, Repr

/-- AST nodes, one constructor per `type` string the parser produces.
Untagged JavaScript sub-objects are modelled as tuples:
a declarator is `(id, init?)`, a catch clause `(param, body)`,
a switch case `(test?, consequent)`, an object-pattern entry `(key, value)`;
function parameters are either plain name strings or pattern nodes. -/
inductive Node where
  | program (body : List Node)
  | functionDeclaration (name : String) (params : List (String ⊕ Node)) (body : Node)
      (async : Bool)
  | functionExpression (name : Option String) (params : List (String ⊕ Node)) (body : Node)
      (async : Bool) (generator : Bool)
  | classDeclaration (name : String) (superClass : Option Node) (body : List Node)
  | classExpression (name : Option String) (superClass : Option Node) (body : List Node)
  | methodDefinition (kind : String) (key : Node) (params : List (String ⊕ Node))
      (body : Node) (isStatic isAsync isGenerator : Bool)
  | variableDeclaration (kind : String) (declarations : List (Node × Option Node))
  | blockStatement (body : List Node)
  | ifStatement (test : Node) (consequent : Node) (alternate : Option Node)
  | whileStatement (test : Node) (body : Node)
  | forStatement (init : Option Node) (test : Option Node) (update : Option Node)
      (body : Node)
  | forInStatement (left : Option Node) (right : Node) (body : Node)
  | forOfStatement (left : Option Node) (right : Node) (body : Node)
  | returnStatement (argument : Option Node)
  | breakStatement
  | continueStatement
  | throwStatement (argument : Node)
  | tryStatement (block : Node) (catchClause : Option (Node × Node))
      (finalizer : Option Node)
  | switchStatement (discriminant : Node) (cases : List (Option Node × List Node))
  | importDeclaration (specifiers : List ImpSpec) (source : String)
  | exportNamedDeclaration (declaration : Option Node)
      (specifiers : List (String × String)) (source : Option String)
  | exportDefaultDeclaration (declaration : Node)
  | expressionStatement (expression : Node)
  | callExpression (callee : Node) (args : List Node) (optional : Bool)
  | memberExpression (object : Node) (property : Node) (computed : Bool) (optional : Bool)
  | arrayExpression (elements : List (Option Node))
  | objectExpression (properties : List Node)
  | property (key : Node) (value : Node) (kind : String) (method : Bool) (shorthand : Bool)
  | assignmentExpression (operator : String) (left : Node) (right : Node)
  | binaryExpression (operator : String) (left : Node) (right : Node)
  | logicalExpression (operator : String) (left : Node) (right : Node)
  | unaryExpression (operator : String) (argument : Node) (pfx : Bool)
  | updateExpression (operator : String) (argument : Node) (pfx : Bool)
  | conditionalExpression (test : Node) (consequent : Node) (alternate : Node)
  | identifier (name : String)
  | literal (value : JsVal)
  | thisExpression
  | superNode
  | templateLiteral (quasis : List String) (expressions : List Node)
  | newExpression (callee : Node) (args : List Node)
  | yieldExpression (argument : Option Node) (delegate : Bool)
  | importExpression (source : Node)
  | objectPattern (properties : List (String × Node))
  | arrayPattern (elements : List (Option Node))

/-- The parser monad: the `current` index threaded over fallible computation. -/
abbrev PM (α : Type) := StateT Nat (Except JsErr) α

/-- `tokens[i]` (may be `undefined`). -/
def tokenAt (tokens : List Token) (i : Nat) : Option Token := tokens.get? i

/-- `peek()` — returns `tokens[current]`; reading a field of `undefined` past
the end of the stream is a dynamic `TypeError`.  (In the source, `peek`
ignores any argument it is given, so the `peek(1)` calls inside
`parseObjectExpression` also read the *current* token.) -/
def peekT (tokens : List Token) : PM Token := fun cur =>
  match tokens.get? cur with
  | some t => .ok (t, cur)
  | none => .error (.typeErr "Cannot read properties of undefined")

/-- `consume(type, value?)`. -/
def consumeT (tokens : List Token) (ty : String) (v : Option String) : PM Token := fun cur =>
  match tokens.get? cur with
  | none => .error (.err "Unexpected EOF")
  | some tok =>
    if tok.ttype ≠ ty then
      .error (.err ("Expected " ++ ty ++ ", got " ++ tok.ttype ++ " (value: "
        ++ tok.strVal ++ ")"))
    else
      match v with
      | some value =>
        if tok.valueIsStr value then .ok (tok, cur + 1)
        else .error (.err ("Expected '" ++ value ++ "', got '" ++ tok.strVal ++ "'"))
      | none => .ok (tok, cur + 1)

/-- `isKeyword(kw)`. -/
def isKeywordP (tokens : List Token) (kw : String) : PM Bool := do
  let t ← peekT tokens
  pure (t.ttype == "KEYWORD" && t.valueIsStr kw)

/-- `isPunct(p)`. -/
def isPunctP (tokens : List Token) (p : String) : PM Bool := do
  let t ← peekT tokens
  pure (t.ttype == "PUNCTUATION" && t.valueIsStr p)

/-- The token's `value` viewed as a literal constant (used when the parser
builds `Literal` nodes out of STRING/NUMBER/BIGINT tokens). -/
def Token.litVal : Token → JsVal
  | .number n => .vnum n
  | .bigintTok i => .vbig i
  | .stringTok s => .vstr s
  | .identifier v => .vstr v
  | .keyword v => .vstr v
  | .operator v => .vstr v
  | .punctuation v => .vstr v
  | .template v => .vstr v
  | .templateHead v => .vstr v
  | .templateMid v => .vstr v
  | .templateTail v => .vstr v
  | _ => JsVal.vundef

/-- `tok.value` membership in a list of strings
(JavaScript `[...].includes(peek().value)`). -/
def tokValMem (t : Token) (l : List String) : Bool := l.any (t.valueIsStr ·)

/-- All the mutually recursive functions of `parse`, one field per source
function; `…Loop` fields are the source's `while` / `do … while` loops.  Every
field of one fuel layer calls siblings of the next layer down, so the whole
family is structurally recursive on the fuel. -/
structure ParserF where
  parseProgram : PM Node
  programLoop : List Node → PM (List Node)
  parseStatement : PM Node
  parseBlockStatement : PM Node
  blockLoop : List Node → PM (List Node)
  parseFunctionDeclaration : Bool → PM Node
  paramsLoop : List (String ⊕ Node) → PM (List (String ⊕ Node))
  parsePattern : PM Node
  objPatternLoop : List (String × Node) → PM (List (String × Node))
  arrPatternLoop : List (Option Node) → PM (List (Option Node))
  parseClassDeclaration : PM Node
  classBodyLoop : List Node → PM (List Node)
  parseIfStatement : PM Node
  parseWhileStatement : PM Node
  parseForStatement : PM Node
  parseReturnStatement : PM Node
  parseBreakStatement : PM Node
  parseContinueStatement : PM Node
  parseThrowStatement : PM Node
  parseTryStatement : PM Node
  parseSwitchStatement : PM Node
  switchCasesLoop : List (Option Node × List Node) → PM (List (Option Node × List Node))
  caseBodyLoop : List Node → PM (List Node)
  parseImportStatement : PM Node
  namedImportsLoop : List ImpSpec → PM (List ImpSpec)
  parseExportStatement : PM Node
  exportSpecsLoop : List (String × String) → PM (List (String × String))
  parseVariableDeclaration : String → Bool → PM Node
  declaratorsLoop : List (Node × Option Node) → PM (List (Node × Option Node))
  parseExpressionStatement : PM Node
  parseExpression : PM Node
  parseAssignment : PM Node
  parseTernary : PM Node
  parseLogicalOr : PM Node
  orLoop : Node → PM Node
  parseLogicalAnd : PM Node
  andLoop : Node → PM Node
  parseBitwiseOr : PM Node
  bitOrLoop : Node → PM Node
  parseBitwiseXor : PM Node
  bitXorLoop : Node → PM Node
  parseBitwiseAnd : PM Node
  bitAndLoop : Node → PM Node
  parseEquality : PM Node
  eqLoop : Node → PM Node
  parseRelational : PM Node
  relLoop : Node → PM Node
  parseShift : PM Node
  shiftLoop : Node → PM Node
  parseAdditive : PM Node
  addLoop : Node → PM Node
  parseMultiplicative : PM Node
  mulLoop : Node → PM Node
  parseExponentiation : PM Node
  parseUnary : PM Node
  parsePostfix : PM Node
  postfixLoop : Node → PM Node
  parsePrimary : PM Node
  chainLoop : Node → PM Node
  argsLoop : List Node → PM (List Node)
  arrayElemsLoop : List (Option Node) → PM (List (Option Node))
  templateLoop : List String → List Node → PM (List String × List Node)
  parseObjectExpression : PM Node
  objExprLoop : List Node → PM (List Node)
  parseFunctionExpression : PM Node
  parseClassExpression : PM Node
  classExprBodyLoop : PM Unit

/-- Out-of-fuel action. -/
def pFuel {α : Type} : PM α := throw .fuel

/-- Base parser layer: no fuel, every entry reports exhaustion. -/
def pBase : ParserF where
  parseProgram := pFuel
  programLoop := fun _ => pFuel
  parseStatement := pFuel
  parseBlockStatement := pFuel
  blockLoop := fun _ => pFuel
  parseFunctionDeclaration := fun _ => pFuel
  paramsLoop := fun _ => pFuel
  parsePattern := pFuel
  objPatternLoop := fun _ => pFuel
  arrPatternLoop := fun _ => pFuel
  parseClassDeclaration := pFuel
  classBodyLoop := fun _ => pFuel
  parseIfStatement := pFuel
  parseWhileStatement := pFuel
  parseForStatement := pFuel
  parseReturnStatement := pFuel
  parseBreakStatement := pFuel
  parseContinueStatement := pFuel
  parseThrowStatement := pFuel
  parseTryStatement := pFuel
  parseSwitchStatement := pFuel
  switchCasesLoop := fun _ => pFuel
  caseBodyLoop := fun _ => pFuel
  parseImportStatement := pFuel
  namedImportsLoop := fun _ => pFuel
  parseExportStatement := pFuel
  exportSpecsLoop := fun _ => pFuel
  parseVariableDeclaration := fun _ _ => pFuel
  declaratorsLoop := fun _ => pFuel
  parseExpressionStatement := pFuel
  parseExpression := pFuel
  parseAssignment := pFuel
  parseTernary := pFuel
  parseLogicalOr := pFuel
  orLoop := fun _ => pFuel
  parseLogicalAnd := pFuel
  andLoop := fun _ => pFuel
  parseBitwiseOr := pFuel
  bitOrLoop := fun _ => pFuel
  parseBitwiseXor := pFuel
  bitXorLoop := fun _ => pFuel
  parseBitwiseAnd := pFuel
  bitAndLoop := fun _ => pFuel
  parseEquality := pFuel
  eqLoop := fun _ => pFuel
  parseRelational := pFuel
  relLoop := fun _ => pFuel
  parseShift := pFuel
  shiftLoop := fun _ => pFuel
  parseAdditive := pFuel
  addLoop := fun _ => pFuel
  parseMultiplicative := pFuel
  mulLoop := fun _ => pFuel
  parseExponentiation := pFuel
  parseUnary := pFuel
  parsePostfix := pFuel
  postfixLoop := fun _ => pFuel
  parsePrimary := pFuel
  chainLoop := fun _ => pFuel
  argsLoop := fun _ => pFuel
  arrayElemsLoop := fun _ => pFuel
  templateLoop := fun _ _ => pFuel
  parseObjectExpression := pFuel
  objExprLoop := fun _ => pFuel
  parseFunctionExpression := pFuel
  parseClassExpression := pFuel
  classExprBodyLoop := pFuel

/-- One fuel layer of the recursive-descent parser.  Each field transcribes the
JavaScript function of the same name; `…Loop` fields are its internal loops.
Comments mark the spots where the source's checks are dead
(`'='`/`'?'`/`'*'`/keywords lex as OPERATOR/KEYWORD and can never match the
tested token type). -/
def mkP (tokens : List Token) : Nat → ParserF
  | 0 => pBase
  | f + 1 =>
    let P := mkP tokens f
    let peek := peekT tokens
    let consume := consumeT tokens
    let isKw := isKeywordP tokens
    let isP := isPunctP tokens
    { parseProgram := do
        let body ← P.programLoop []
        pure (.program body)
      programLoop := fun acc => do
        let t ← peek
        if t.ttype ≠ "EOF" then
          let s ← P.parseStatement
          P.programLoop (acc ++ [s])
        else pure acc
      parseStatement := do
        if (← isKw "export") then P.parseExportStatement
        else if (← isKw "import") then P.parseImportStatement
        else if (← isKw "function") then P.parseFunctionDeclaration false
        else
          let cur ← get
          let asyncFn := (← isKw "async") &&
            (match tokenAt tokens (cur + 1) with
             | some t => t.valueIsStr "function"
             | none => false)
          if asyncFn then do
            let _ ← consume "KEYWORD" (some "async")
            P.parseFunctionDeclaration true
          else if (← isKw "class") then P.parseClassDeclaration
          else if (← isKw "if") then P.parseIfStatement
          else if (← isKw "while") then P.parseWhileStatement
          else if (← isKw "for") then P.parseForStatement
          else if (← isKw "return") then P.parseReturnStatement
          else if (← isKw "break") then P.parseBreakStatement
          else if (← isKw "continue") then P.parseContinueStatement
          else if (← isKw "try") then P.parseTryStatement
          else if (← isKw "switch") then P.parseSwitchStatement
          else if (← isKw "throw") then P.parseThrowStatement
          else if (← isKw "var") || (← isKw "let") || (← isKw "const") then do
            let t ← peek
            P.parseVariableDeclaration t.strVal true
          else if (← isP "\x7b") then P.parseBlockStatement
          else P.parseExpressionStatement
      parseBlockStatement := do
        let _ ← consume "PUNCTUATION" (some "\x7b")
        let body ← P.blockLoop []
        let _ ← consume "PUNCTUATION" (some "\x7d")
        pure (.blockStatement body)
      blockLoop := fun acc => do
        if !(← isP "\x7d") then
          let s ← P.parseStatement
          P.blockLoop (acc ++ [s])
        else pure acc
      parseFunctionDeclaration := fun async => do
        let _ ← consume "KEYWORD" (some "function")
        let nameTok ← consume "IDENTIFIER" none
        let _ ← consume "PUNCTUATION" (some "(")
        let params ← if !(← isP ")") then P.paramsLoop [] else pure []
        let _ ← consume "PUNCTUATION" (some ")")
        let body ← P.parseBlockStatement
        pure (.functionDeclaration nameTok.strVal params body async)
      paramsLoop := fun acc => do
        let item : String ⊕ Node ←
          if (← isP "\x7b") || (← isP "[") then do
            let p ← P.parsePattern
            pure (Sum.inr p)
          else do
            let t ← consume "IDENTIFIER" none
            pure (Sum.inl t.strVal)
        let acc := acc ++ [item]
        if (← isP ",") then do
          let _ ← consume "PUNCTUATION" (some ",")
          P.paramsLoop acc
        else pure acc
      parsePattern := do
        if (← isP "\x7b") then do
          let _ ← consume "PUNCTUATION" (some "\x7b")
          let props ← P.objPatternLoop []
          let _ ← consume "PUNCTUATION" (some "\x7d")
          pure (.objectPattern props)
        else if (← isP "[") then do
          let _ ← consume "PUNCTUATION" (some "[")
          let elems ← P.arrPatternLoop []
          let _ ← consume "PUNCTUATION" (some "]")
          pure (.arrayPattern elems)
        else throw (.err "Invalid pattern")
      objPatternLoop := fun acc => do
        if (← isP "\x7d") then pure acc
        else do
          let keyTok ← consume "IDENTIFIER" none
          let key := keyTok.strVal
          let value ←
            if (← isP ":") then do
              let _ ← consume "PUNCTUATION" (some ":")
              if (← isP "\x7b") || (← isP "[") then P.parsePattern
              else do
                let t ← consume "IDENTIFIER" none
                pure (Node.identifier t.strVal)
            else pure (Node.identifier key)
          let acc := acc ++ [(key, value)]
          if (← isP ",") then do
            let _ ← consume "PUNCTUATION" (some ",")
            P.objPatternLoop acc
          else P.objPatternLoop acc
      arrPatternLoop := fun acc => do
        if (← isP "]") then pure acc
        else if (← isP ",") then do
          let _ ← consume "PUNCTUATION" (some ",")
          P.arrPatternLoop (acc ++ [none])
        else do
          let element ←
            if (← isP "\x7b") || (← isP "[") then P.parsePattern
            else do
              let t ← consume "IDENTIFIER" none
              pure (Node.identifier t.strVal)
          let acc := acc ++ [some element]
          if (← isP ",") then do
            let _ ← consume "PUNCTUATION" (some ",")
            P.arrPatternLoop acc
          else P.arrPatternLoop acc
      parseClassDeclaration := do
        let _ ← consume "KEYWORD" (some "class")
        let nameTok ← consume "IDENTIFIER" none
        let superClass ←
          if (← isKw "extends") then do
            let _ ← consume "KEYWORD" (some "extends")
            let s ← P.parsePrimary
            pure (some s)
          else pure none
        let _ ← consume "PUNCTUATION" (some "\x7b")
        let body ← P.classBodyLoop []
        let _ ← consume "PUNCTUATION" (some "\x7d")
        pure (.classDeclaration nameTok.strVal superClass body)
      classBodyLoop := fun acc => do
        if (← isP "\x7d") then pure acc
        else do
          let isStatic ←
            if (← isKw "static") then do
              let _ ← consume "KEYWORD" (some "static"); pure true
            else pure false
          let isAsync ←
            if (← isKw "async") then do
              let _ ← consume "KEYWORD" (some "async"); pure true
            else pure false
          -- `isPunct('*')` can never hold: `*` lexes as an OPERATOR token
          let isGenerator ←
            if (← isP "*") then do
              let _ ← consume "PUNCTUATION" (some "*"); pure true
            else pure false
          let kind ←
            if (← isKw "get") || (← isKw "set") then do
              let t ← peek
              let _ ← consume "KEYWORD" (some t.strVal)
              pure t.strVal
            else pure "method"
          let t ← peek
          let key ←
            if t.ttype = "IDENTIFIER" then do
              let tok ← consume "IDENTIFIER" none
              pure (Node.identifier tok.strVal)
            else if t.ttype = "STRING" || t.ttype = "NUMBER" then do
              let tok ← consume t.ttype none
              pure (Node.literal tok.litVal)
            else if (← isP "[") then do
              let _ ← consume "PUNCTUATION" (some "[")
              let k ← P.parseExpression
              let _ ← consume "PUNCTUATION" (some "]")
              pure k
            else throw (.err "Expected method name")
          let _ ← consume "PUNCTUATION" (some "(")
          let params ← if !(← isP ")") then P.paramsLoop [] else pure []
          let _ ← consume "PUNCTUATION" (some ")")
          let bodyMethod ← P.parseBlockStatement
          P.classBodyLoop
            (acc ++ [.methodDefinition kind key params bodyMethod isStatic isAsync isGenerator])
      parseIfStatement := do
        let _ ← consume "KEYWORD" (some "if")
        let _ ← consume "PUNCTUATION" (some "(")
        let test ← P.parseExpression
        let _ ← consume "PUNCTUATION" (some ")")
        let consequent ← P.parseStatement
        let alternate ←
          if (← isKw "else") then do
            let _ ← consume "KEYWORD" (some "else")
            let a ← P.parseStatement
            pure (some a)
          else pure none
        pure (.ifStatement test consequent alternate)
      parseWhileStatement := do
        let _ ← consume "KEYWORD" (some "while")
        let _ ← consume "PUNCTUATION" (some "(")
        let test ← P.parseExpression
        let _ ← consume "PUNCTUATION" (some ")")
        let body ← P.parseStatement
        pure (.whileStatement test body)
      parseForStatement := do
        let _ ← consume "KEYWORD" (some "for")
        let _ ← consume "PUNCTUATION" (some "(")
        let init ←
          if !(← isP ";") then
            if (← isKw "let") || (← isKw "var") || (← isKw "const") then do
              let t ← peek
              let d ← P.parseVariableDeclaration t.strVal false
              pure (some d)
            else do
              let e ← P.parseExpression
              pure (some e)
          else pure none
        if (← isP ";") then do
          let _ ← consume "PUNCTUATION" (some ";")
          let test ← if !(← isP ";") then some <$> P.parseExpression else pure none
          let _ ← consume "PUNCTUATION" (some ";")
          let update ← if !(← isP ")") then some <$> P.parseExpression else pure none
          let _ ← consume "PUNCTUATION" (some ")")
          let body ← P.parseStatement
          pure (.forStatement init test update body)
        else if (← isKw "in") || (← isKw "of") then do
          let isIn ← isKw "in"
          if isIn then do
            let _ ← consume "KEYWORD" (some "in")
            pure ()
          else do
            let _ ← consume "KEYWORD" (some "of")
            pure ()
          let right ← P.parseExpression
          let _ ← consume "PUNCTUATION" (some ")")
          let body ← P.parseStatement
          pure (if isIn then .forInStatement init right body
                else .forOfStatement init right body)
        else throw (.err "Invalid for loop")
      parseReturnStatement := do
        let _ ← consume "KEYWORD" (some "return")
        let argument ← if !(← isP ";") then some <$> P.parseExpression else pure none
        let _ ← consume "PUNCTUATION" (some ";")
        pure (.returnStatement argument)
      parseBreakStatement := do
        let _ ← consume "KEYWORD" (some "break")
        let _ ← consume "PUNCTUATION" (some ";")
        pure .breakStatement
      parseContinueStatement := do
        let _ ← consume "KEYWORD" (some "continue")
        let _ ← consume "PUNCTUATION" (some ";")
        pure .continueStatement
      parseThrowStatement := do
        let _ ← consume "KEYWORD" (some "throw")
        let argument ← P.parseExpression
        let _ ← consume "PUNCTUATION" (some ";")
        pure (.throwStatement argument)
      parseTryStatement := do
        let _ ← consume "KEYWORD" (some "try")
        let block ← P.parseBlockStatement
        let catchClause ←
          if (← isKw "catch") then do
            let _ ← consume "KEYWORD" (some "catch")
            let _ ← consume "PUNCTUATION" (some "(")
            let param ←
              if (← isP "\x7b") || (← isP "[") then P.parsePattern
              else do
                let t ← consume "IDENTIFIER" none
                pure (Node.identifier t.strVal)
            let _ ← consume "PUNCTUATION" (some ")")
            let catchBody ← P.parseBlockStatement
            pure (some (param, catchBody))
          else pure none
        let finalizer ←
          if (← isKw "finally") then do
            let _ ← consume "KEYWORD" (some "finally")
            some <$> P.parseBlockStatement
          else pure none
        pure (.tryStatement block catchClause finalizer)
      parseSwitchStatement := do
        let _ ← consume "KEYWORD" (some "switch")
        let _ ← consume "PUNCTUATION" (some "(")
        let discriminant ← P.parseExpression
        let _ ← consume "PUNCTUATION" (some ")")
        let _ ← consume "PUNCTUATION" (some "\x7b")
        let cases ← P.switchCasesLoop []
        let _ ← consume "PUNCTUATION" (some "\x7d")
        pure (.switchStatement discriminant cases)
      switchCasesLoop := fun acc => do
        if (← isP "\x7d") then pure acc
        else if (← isKw "case") then do
          let _ ← consume "KEYWORD" (some "case")
          let test ← P.parseExpression
          let _ ← consume "PUNCTUATION" (some ":")
          let consequent ← P.caseBodyLoop []
          P.switchCasesLoop (acc ++ [(some test, consequent)])
        else if (← isKw "default") then do
          let _ ← consume "KEYWORD" (some "default")
          let _ ← consume "PUNCTUATION" (some ":")
          let consequent ← P.caseBodyLoop []
          P.switchCasesLoop (acc ++ [(none, consequent)])
        else throw (.err "Expected case or default")
      caseBodyLoop := fun acc => do
        if !(← isP "\x7d") && !(← isKw "case") && !(← isKw "default") then do
          let s ← P.parseStatement
          P.caseBodyLoop (acc ++ [s])
        else pure acc
      parseImportStatement := do
        let _ ← consume "KEYWORD" (some "import")
        let t ← peek
        if t.ttype = "STRING" then do
          let srcTok ← consume "STRING" none
          let _ ← consume "PUNCTUATION" (some ";")
          pure (.importDeclaration [] srcTok.strVal)
        else do
          -- `isKeyword('*')` can never hold: `*` lexes as an OPERATOR token
          let specifiers ←
            if (← isKw "*") then do
              let _ ← consume "OPERATOR" (some "*")
              if (← isKw "as") then do
                let _ ← consume "KEYWORD" (some "as")
                let lcl ← consume "IDENTIFIER" none
                pure [ImpSpec.nsSpec lcl.strVal]
              else throw (.err "Expected as after *")
            else if (← isP "\x7b") then do
              let _ ← consume "PUNCTUATION" (some "\x7b")
              let specs ← P.namedImportsLoop []
              let _ ← consume "PUNCTUATION" (some "\x7d")
              pure specs
            else do
              let lcl ← consume "IDENTIFIER" none
              let specs := [ImpSpec.defaultSpec lcl.strVal]
              if (← isP ",") then do
                let _ ← consume "PUNCTUATION" (some ",")
                if (← isKw "*") then do
                  let _ ← consume "OPERATOR" (some "*")
                  if (← isKw "as") then do
                    let _ ← consume "KEYWORD" (some "as")
                    let ns ← consume "IDENTIFIER" none
                    pure (specs ++ [ImpSpec.nsSpec ns.strVal])
                  else pure specs
                else if (← isP "\x7b") then do
                  let _ ← consume "PUNCTUATION" (some "\x7b")
                  let specs ← P.namedImportsLoop specs
                  let _ ← consume "PUNCTUATION" (some "\x7d")
                  pure specs
                else pure specs
              else pure specs
          if (← isKw "from") then do
            let _ ← consume "KEYWORD" (some "from")
            let srcTok ← consume "STRING" none
            let _ ← consume "PUNCTUATION" (some ";")
            pure (.importDeclaration specifiers srcTok.strVal)
          else throw (.err "Expected from")
      namedImportsLoop := fun acc => do
        if (← isP "\x7d") then pure acc
        else do
          let importedTok ← consume "IDENTIFIER" none
          let imported := importedTok.strVal
          let lcl ←
            if (← isKw "as") then do
              let _ ← consume "KEYWORD" (some "as")
              let l ← consume "IDENTIFIER" none
              pure l.strVal
            else pure imported
          let acc := acc ++ [ImpSpec.named imported lcl]
          if (← isP ",") then do
            let _ ← consume "PUNCTUATION" (some ",")
            P.namedImportsLoop acc
          else P.namedImportsLoop acc
      parseExportStatement := do
        let _ ← consume "KEYWORD" (some "export")
        if (← isKw "default") then do
          let _ ← consume "KEYWORD" (some "default")
          let declaration ← P.parseStatement
          pure (.exportDefaultDeclaration declaration)
        else if (← isKw "var") || (← isKw "let") || (← isKw "const") then do
          let t ← peek
          let declaration ← P.parseVariableDeclaration t.strVal true
          pure (.exportNamedDeclaration (some declaration) [] none)
        else if (← isKw "function") then do
          let declaration ← P.parseFunctionDeclaration false
          pure (.exportNamedDeclaration (some declaration) [] none)
        else if (← isKw "class") then do
          let declaration ← P.parseClassDeclaration
          pure (.exportNamedDeclaration (some declaration) [] none)
        else if (← isP "\x7b") then do
          let _ ← consume "PUNCTUATION" (some "\x7b")
          let specifiers ← P.exportSpecsLoop []
          let _ ← consume "PUNCTUATION" (some "\x7d")
          let source ←
            if (← isKw "from") then do
              let _ ← consume "KEYWORD" (some "from")
              let s ← consume "STRING" none
              pure (some s.strVal)
            else pure none
          let _ ← consume "PUNCTUATION" (some ";")
          pure (.exportNamedDeclaration none specifiers source)
        else throw (.err "Invalid export")
      exportSpecsLoop := fun acc => do
        if (← isP "\x7d") then pure acc
        else do
          let lclTok ← consume "IDENTIFIER" none
          let lcl := lclTok.strVal
          let exported ←
            if (← isKw "as") then do
              let _ ← consume "KEYWORD" (some "as")
              let e ← consume "IDENTIFIER" none
              pure e.strVal
            else pure lcl
          let acc := acc ++ [(lcl, exported)]
          if (← isP ",") then do
            let _ ← consume "PUNCTUATION" (some ",")
            P.exportSpecsLoop acc
          else P.exportSpecsLoop acc
      parseVariableDeclaration := fun kind consumeSemicolon => do
        let _ ← consume "KEYWORD" (some kind)
        let declarations ← P.declaratorsLoop []
        if consumeSemicolon then do
          let _ ← consume "PUNCTUATION" (some ";")
          pure (.variableDeclaration kind declarations)
        else pure (.variableDeclaration kind declarations)
      declaratorsLoop := fun acc => do
        let id ←
          if (← isP "\x7b") || (← isP "[") then P.parsePattern
          else do
            let t ← consume "IDENTIFIER" none
            pure (Node.identifier t.strVal)
        -- `isPunct('=')` can never hold: `=` lexes as an OPERATOR token, so
        -- initializers are unreachable from source text
        let init ←
          if (← isP "=") then do
            let _ ← consume "OPERATOR" (some "=")
            some <$> P.parseExpression
          else pure none
        let acc := acc ++ [(id, init)]
        if (← isP ",") then do
          let _ ← consume "PUNCTUATION" (some ",")
          P.declaratorsLoop acc
        else pure acc
      parseExpressionStatement := do
        let expr ← P.parseExpression
        let _ ← consume "PUNCTUATION" (some ";")
        pure (.expressionStatement expr)
      parseExpression := P.parseAssignment
      parseAssignment := do
        let left ← P.parseTernary
        let t ← peek
        if t.ttype = "OPERATOR" &&
            tokValMem t ["=", "+=", "-=", "*=", "/=", "%=", "<<=", ">>=", ">>>=",
              "&=", "|=", "^=", "**=", "&&=", "||=", "??="] then do
          let opTok ← consume "OPERATOR" none
          let right ← P.parseAssignment
          pure (.assignmentExpression opTok.strVal left right)
        else pure left
      parseTernary := do
        let left ← P.parseLogicalOr
        -- `isPunct('?')` can never hold: `?` lexes as an OPERATOR token
        if (← isP "?") then do
          let _ ← consume "PUNCTUATION" (some "?")
          let consequent ← P.parseExpression
          let _ ← consume "PUNCTUATION" (some ":")
          let alternate ← P.parseExpression
          pure (.conditionalExpression left consequent alternate)
        else pure left
      parseLogicalOr := do
        let left ← P.parseLogicalAnd
        P.orLoop left
      orLoop := fun left => do
        let t ← peek
        if t.ttype = "OPERATOR" && t.valueIsStr "||" then do
          let opTok ← consume "OPERATOR" none
          let right ← P.parseLogicalAnd
          P.orLoop (.logicalExpression opTok.strVal left right)
        else pure left
      parseLogicalAnd := do
        let left ← P.parseBitwiseOr
        P.andLoop left
      andLoop := fun left => do
        let t ← peek
        if t.ttype = "OPERATOR" && t.valueIsStr "&&" then do
          let opTok ← consume "OPERATOR" none
          let right ← P.parseBitwiseOr
          P.andLoop (.logicalExpression opTok.strVal left right)
        else pure left
      parseBitwiseOr := do
        let left ← P.parseBitwiseXor
        P.bitOrLoop left
      bitOrLoop := fun left => do
        let t ← peek
        if t.ttype = "OPERATOR" && t.valueIsStr "|" then do
          let opTok ← consume "OPERATOR" none
          let right ← P.parseBitwiseXor
          P.bitOrLoop (.binaryExpression opTok.strVal left right)
        else pure left
      parseBitwiseXor := do
        let left ← P.parseBitwiseAnd
        P.bitXorLoop left
      bitXorLoop := fun left => do
        let t ← peek
        if t.ttype = "OPERATOR" && t.valueIsStr "^" then do
          let opTok ← consume "OPERATOR" none
          let right ← P.parseBitwiseAnd
          P.bitXorLoop (.binaryExpression opTok.strVal left right)
        else pure left
      parseBitwiseAnd := do
        let left ← P.parseEquality
        P.bitAndLoop left
      bitAndLoop := fun left => do
        let t ← peek
        if t.ttype = "OPERATOR" && t.valueIsStr "&" then do
          let opTok ← consume "OPERATOR" none
          let right ← P.parseEquality
          P.bitAndLoop (.binaryExpression opTok.strVal left right)
        else pure left
      parseEquality := do
        let left ← P.parseRelational
        P.eqLoop left
      eqLoop := fun left => do
        let t ← peek
        if t.ttype = "OPERATOR" && tokValMem t ["==", "===", "!=", "!=="] then do
          let opTok ← consume "OPERATOR" none
          let right ← P.parseRelational
          P.eqLoop (.binaryExpression opTok.strVal left right)
        else pure left
      parseRelational := do
        let left ← P.parseShift
        P.relLoop left
      relLoop := fun left => do
        let t ← peek
        -- `in` / `instanceof` lex as KEYWORD tokens, so only `< > <= >=`
        -- can actually fire here
        if t.ttype = "OPERATOR" && tokValMem t ["<", ">", "<=", ">=", "in", "instanceof"] then do
          let opTok ← consume "OPERATOR" none
          let right ← P.parseShift
          P.relLoop (.binaryExpression opTok.strVal left right)
        else pure left
      parseShift := do
        let left ← P.parseAdditive
        P.shiftLoop left
      shiftLoop := fun left => do
        let t ← peek
        if t.ttype = "OPERATOR" && tokValMem t ["<<", ">>", ">>>"] then do
          let opTok ← consume "OPERATOR" none
          let right ← P.parseAdditive
          P.shiftLoop (.binaryExpression opTok.strVal left right)
        else pure left
      parseAdditive := do
        let left ← P.parseMultiplicative
        P.addLoop left
      addLoop := fun left => do
        let t ← peek
        if t.ttype = "OPERATOR" && tokValMem t ["+", "-"] then do
          let opTok ← consume "OPERATOR" none
          let right ← P.parseMultiplicative
          P.addLoop (.binaryExpression opTok.strVal left right)
        else pure left
      parseMultiplicative := do
        let left ← P.parseExponentiation
        P.mulLoop left
      mulLoop := fun left => do
        let t ← peek
        if t.ttype = "OPERATOR" && tokValMem t ["*", "/", "%"] then do
          let opTok ← consume "OPERATOR" none
          let right ← P.parseExponentiation
          P.mulLoop (.binaryExpression opTok.strVal left right)
        else pure left
      parseExponentiation := do
        let left ← P.parseUnary
        let t ← peek
        if t.ttype = "OPERATOR" && t.valueIsStr "**" then do
          let opTok ← consume "OPERATOR" none
          let right ← P.parseExponentiation
          pure (.binaryExpression opTok.strVal left right)
        else pure left
      parseUnary := do
        let t ← peek
        -- `typeof void delete await` lex as KEYWORD tokens, so only the
        -- symbolic operators can actually fire here
        if t.ttype = "OPERATOR" &&
            tokValMem t ["!", "-", "+", "~", "typeof", "void", "delete", "await"] then do
          let opTok ← consume "OPERATOR" none
          let arg ← P.parseUnary
          pure (.unaryExpression opTok.strVal arg true)
        else if t.ttype = "OPERATOR" && tokValMem t ["++", "--"] then do
          let opTok ← consume "OPERATOR" none
          let arg ← P.parseUnary
          pure (.updateExpression opTok.strVal arg true)
        else P.parsePostfix
      parsePostfix := do
        let left ← P.parsePrimary
        P.postfixLoop left
      postfixLoop := fun left => do
        let t ← peek
        if t.ttype = "OPERATOR" && tokValMem t ["++", "--"] then do
          let opTok ← consume "OPERATOR" none
          P.postfixLoop (.updateExpression opTok.strVal left false)
        else pure left
      parsePrimary := do
        let tok ← peek
        if tok.ttype = "NUMBER" then do
          let _ ← consume "NUMBER" none
          pure (.literal tok.litVal)
        else if tok.ttype = "BIGINT" then do
          let _ ← consume "BIGINT" none
          pure (.literal tok.litVal)
        else if tok.ttype = "STRING" then do
          let _ ← consume "STRING" none
          pure (.literal tok.litVal)
        else if tok.ttype = "TEMPLATE" then do
          let _ ← consume "TEMPLATE" none
          pure (.templateLiteral [tok.strVal] [])
        else if tok.ttype = "TEMPLATE_HEAD" then do
          let _ ← consume "TEMPLATE_HEAD" none
          let (quasis, expressions) ← P.templateLoop [tok.strVal] []
          pure (.templateLiteral quasis expressions)
        else if tok.ttype = "KEYWORD" && tok.valueIsStr "true" then do
          let _ ← consume "KEYWORD" none
          pure (.literal (.vbool true))
        else if tok.ttype = "KEYWORD" && tok.valueIsStr "false" then do
          let _ ← consume "KEYWORD" none
          pure (.literal (.vbool false))
        else if tok.ttype = "KEYWORD" && tok.valueIsStr "null" then do
          let _ ← consume "KEYWORD" none
          pure (.literal .vnull)
        else if tok.ttype = "KEYWORD" && tok.valueIsStr "this" then do
          let _ ← consume "KEYWORD" none
          pure .thisExpression
        else if tok.ttype = "KEYWORD" && tok.valueIsStr "super" then do
          let _ ← consume "KEYWORD" none
          pure .superNode
        else if tok.ttype = "IDENTIFIER" then do
          let nameTok ← consume "IDENTIFIER" none
          P.chainLoop (.identifier nameTok.strVal)
        else if (← isP "(") then do
          let _ ← consume "PUNCTUATION" (some "(")
          let expr ← P.parseExpression
          let _ ← consume "PUNCTUATION" (some ")")
          pure expr
        else if (← isP "[") then do
          let _ ← consume "PUNCTUATION" (some "[")
          let elements ← if !(← isP "]") then P.arrayElemsLoop [] else pure []
          let _ ← consume "PUNCTUATION" (some "]")
          pure (.arrayExpression elements)
        else if (← isP "\x7b") then P.parseObjectExpression
        -- All the following `OPERATOR` comparisons are dead: `function`,
        -- `class`, `new`, `import`, `yield` and `await` lex as KEYWORD tokens
        else if tok.ttype = "OPERATOR" && tok.valueIsStr "function" then
          P.parseFunctionExpression
        else if tok.ttype = "OPERATOR" && tok.valueIsStr "class" then
          P.parseClassExpression
        else if tok.ttype = "OPERATOR" && tok.valueIsStr "new" then do
          let _ ← consume "OPERATOR" (some "new")
          let callee ← P.parsePrimary
          let args ←
            if (← isP "(") then do
              let _ ← consume "PUNCTUATION" (some "(")
              let args ← if !(← isP ")") then P.argsLoop [] else pure []
              let _ ← consume "PUNCTUATION" (some ")")
              pure args
            else pure []
          pure (.newExpression callee args)
        else if tok.ttype = "OPERATOR" && tok.valueIsStr "import" then do
          let _ ← consume "OPERATOR" (some "import")
          if (← isP "(") then do
            let _ ← consume "PUNCTUATION" (some "(")
            let source ← P.parseExpression
            let _ ← consume "PUNCTUATION" (some ")")
            pure (.importExpression source)
          else throw (.unexpectedToken tok.ttype tok.strVal)
        else if tok.ttype = "OPERATOR" && tok.valueIsStr "yield" then do
          let _ ← consume "OPERATOR" (some "yield")
          let t2 ← peek
          let delegate ←
            if t2.ttype = "OPERATOR" && t2.valueIsStr "*" then do
              let _ ← consume "OPERATOR" (some "*")
              pure true
            else pure false
          let argument ←
            if !(← isP ";") && !(← isP ")") && !(← isP ",") then
              some <$> P.parseExpression
            else pure none
          pure (.yieldExpression argument delegate)
        else throw (.unexpectedToken tok.ttype tok.strVal)
      chainLoop := fun expr => do
        let t ← peek
        let isOptChain := t.ttype = "OPERATOR" && t.valueIsStr "?."
        if (← isP ".") || (← isP "[") || (← isP "(") || isOptChain then
          if (← isP ".") then do
            let _ ← consume "PUNCTUATION" (some ".")
            let propTok ← consume "IDENTIFIER" none
            P.chainLoop (.memberExpression expr (.identifier propTok.strVal) false false)
          else if isOptChain then do
            let _ ← consume "OPERATOR" (some "?.")
            let propTok ← consume "IDENTIFIER" none
            P.chainLoop (.memberExpression expr (.identifier propTok.strVal) false true)
          else if (← isP "[") then do
            let _ ← consume "PUNCTUATION" (some "[")
            let prop ← P.parseExpression
            let _ ← consume "PUNCTUATION" (some "]")
            P.chainLoop (.memberExpression expr prop true false)
          else if (← isP "(") then do
            let _ ← consume "PUNCTUATION" (some "(")
            let args ← if !(← isP ")") then P.argsLoop [] else pure []
            let _ ← consume "PUNCTUATION" (some ")")
            P.chainLoop (.callExpression expr args false)
          else pure expr
        else pure expr
      argsLoop := fun acc => do
        let a ← P.parseExpression
        let acc := acc ++ [a]
        if (← isP ",") then do
          let _ ← consume "PUNCTUATION" (some ",")
          P.argsLoop acc
        else pure acc
      arrayElemsLoop := fun acc => do
        let acc ←
          if (← isP ",") then pure (acc ++ [none])
          else do
            let e ← P.parseExpression
            pure (acc ++ [some e])
        if (← isP ",") then do
          let _ ← consume "PUNCTUATION" (some ",")
          P.arrayElemsLoop acc
        else pure acc
      templateLoop := fun quasis expressions => do
        let t ← peek
        if t.ttype = "TEMPLATE_EXPR" then do
          let _ ← consume "TEMPLATE_EXPR" none
          -- `new Parser(exprTokens)`: there is no `Parser` in scope, so a
          -- template with interpolation crashes the parser here
          throw (.refErr "Parser is not defined")
        else pure (quasis, expressions)
      parseObjectExpression := do
        let _ ← consume "PUNCTUATION" (some "\x7b")
        let properties ← P.objExprLoop []
        let _ ← consume "PUNCTUATION" (some "\x7d")
        pure (.objectExpression properties)
      objExprLoop := fun acc => do
        if (← isP "\x7d") then pure acc
        else do
          let t ← peek
          let prop ←
            if t.ttype = "IDENTIFIER" then do
              -- `peek(1)` ignores its argument in the source and reads the
              -- *current* token, whose value is the identifier itself, so
              -- none of the three lookahead branches can fire
              let t1 ← peek
              if t1.valueIsStr ":" then do
                let _ ← consume "IDENTIFIER" none
                let _ ← consume "PUNCTUATION" (some ":")
                let value ← P.parseExpression
                pure (Node.property (.identifier t.strVal) value "init" false false)
              else if t1.valueIsStr "," || t1.valueIsStr "\x7d" then do
                let _ ← consume "IDENTIFIER" none
                pure (Node.property (.identifier t.strVal) (.identifier t.strVal)
                  "init" false true)
              else if t1.valueIsStr "(" then do
                let _ ← consume "IDENTIFIER" none
                let _ ← consume "PUNCTUATION" (some "(")
                let params ← if !(← isP ")") then P.paramsLoop [] else pure []
                let _ ← consume "PUNCTUATION" (some ")")
                let body ← P.parseBlockStatement
                pure (Node.property (.identifier t.strVal)
                  (.functionExpression none params body false false) "init" true false)
              else throw (.err "Unexpected in object literal")
            else if t.ttype = "STRING" || t.ttype = "NUMBER" then do
              let tok ← consume t.ttype none
              let _ ← consume "PUNCTUATION" (some ":")
              let value ← P.parseExpression
              pure (Node.property (.literal tok.litVal) value "init" false false)
            else if (← isP "[") then do
              let _ ← consume "PUNCTUATION" (some "[")
              let key ← P.parseExpression
              let _ ← consume "PUNCTUATION" (some "]")
              let _ ← consume "PUNCTUATION" (some ":")
              let value ← P.parseExpression
              pure (Node.property key value "init" false false)
            else if (← isKw "get") || (← isKw "set") then do
              let kindTok ← peek
              let kind := kindTok.strVal
              let _ ← consume "KEYWORD" (some kind)
              let nameTok ← consume "IDENTIFIER" none
              let _ ← consume "PUNCTUATION" (some "(")
              let params ←
                if !(← isP ")") then
                  if kind = "set" then do
                    let p ← consume "IDENTIFIER" none
                    pure [Sum.inl p.strVal]
                  else pure ([] : List (String ⊕ Node))
                else pure []
              let _ ← consume "PUNCTUATION" (some ")")
              let body ← P.parseBlockStatement
              pure (Node.property (.identifier nameTok.strVal)
                (.functionExpression none params body false false) kind false false)
            else throw (.err "Unexpected token in object literal")
          let acc := acc ++ [prop]
          if (← isP ",") then do
            let _ ← consume "PUNCTUATION" (some ",")
            P.objExprLoop acc
          else P.objExprLoop acc
      parseFunctionExpression := do
        let _ ← consume "OPERATOR" (some "function")
        let t ← peek
        let name ←
          if t.ttype = "IDENTIFIER" then do
            let n ← consume "IDENTIFIER" none
            pure (some n.strVal)
          else pure none
        let _ ← consume "PUNCTUATION" (some "(")
        let params ← if !(← isP ")") then P.paramsLoop [] else pure []
        let _ ← consume "PUNCTUATION" (some ")")
        let body ← P.parseBlockStatement
        pure (.functionExpression name params body false false)
      parseClassExpression := do
        let _ ← consume "OPERATOR" (some "class")
        let t ← peek
        let name ←
          if t.ttype = "IDENTIFIER" then do
            let n ← consume "IDENTIFIER" none
            pure (some n.strVal)
          else pure none
        let superClass ←
          if (← isKw "extends") then do
            let _ ← consume "KEYWORD" (some "extends")
            some <$> P.parsePrimary
          else pure none
        let _ ← consume "PUNCTUATION" (some "\x7b")
        let _ ← P.classExprBodyLoop
        let _ ← consume "PUNCTUATION" (some "\x7d")
        pure (.classExpression name superClass [])
      classExprBodyLoop := do
        if !(← isP "\x7d") then do
          -- the source's placeholder body consumes a `\x7d` inside the loop
          let _ ← consume "PUNCTUATION" (some "\x7d")
          P.classExprBodyLoop
        else pure () }

/-- `parse(tokens)`: run `parseProgram` from index 0. -/
def parse (tokens : List Token) (fuel : Nat) : Except JsErr Node :=
  ((mkP tokens fuel).parseProgram).run' 0

-- ==================== SEMANTIC ANALYZER ====================

/-- The two diagnostic shapes `validateSemantics` can produce. -/
def SemMsgOk (m : String) : Prop :=
  (∃ n, m = "Duplicate declaration: " ++ n) ∨ (∃ n, m = "Undefined variable: " ++ n)

/-- One collected diagnostic: the message string, which by construction (the
analyzer's only two `errors.push` sites) has one of the two shapes. -/
structure SemMsg where
  msg : String
  ok : SemMsgOk msg

/-- The scope stack and error accumulator of `validateSemantics`.  A scope is
its list of declared names (the source maps names to `\x7b kind, node \x7d`
records, but only membership is ever read). -/
structure SemState where
  scopes : List (List String)
  errors : List SemMsg

/-- The built-in allowlist `isGlobal`. -/
def globalsList : List String :=
  ["console", "Math", "JSON", "Object", "Array", "String", "Number", "Boolean",
   "Date", "RegExp", "Error", "Promise", "Map", "Set", "WeakMap", "WeakSet",
   "Symbol", "Reflect", "Proxy", "globalThis", "window", "document", "fetch",
   "setTimeout", "setInterval", "clearTimeout", "clearInterval", "WebSocket",
   "EventTarget", "Event"]

def isGlobalName (name : String) : Bool := globalsList.contains name

/-- `declare(name, …)`: report `Duplicate declaration` when the innermost
scope already has the name, then add it. -/
def semDeclare (name : String) (st : SemState) : SemState :=
  match st.scopes with
  | scope :: rest =>
      let errors :=
        if scope.contains name then
          st.errors ++ [⟨"Duplicate declaration: " ++ name, Or.inl ⟨name, rfl⟩⟩]
        else st.errors
      { scopes := (name :: scope) :: rest, errors }
  | [] => st   -- unreachable: the scope stack never empties

/-- `lookup(name)`: walk the scopes outward. -/
def semLookup (name : String) (st : SemState) : Bool :=
  st.scopes.any (·.contains name)

def enterScope (st : SemState) : SemState := { st with scopes := [] :: st.scopes }

def exitScope (st : SemState) : SemState := { st with scopes := st.scopes.tail }

/-- `walkPattern(pattern, callback)` where every call site's callback is
`declare`: declare one binding per terminal identifier. -/
def walkPattern : Nat → Node → SemState → Except JsErr SemState
  | 0, _, _ => .error .fuel
  | f + 1, pat, st =>
    match pat with
    | .identifier name => .ok (semDeclare name st)
    | .objectPattern props =>
        props.foldlM
          (fun st (kv : String × Node) =>
            match kv.2 with
            | .identifier name => .ok (semDeclare name st)
            | v => walkPattern f v st)
          st
    | .arrayPattern elems =>
        elems.foldlM
          (fun st (e : Option Node) =>
            match e with
            | some p => walkPattern f p st
            | none => .ok st)
          st
    | _ => .ok st

/-- Declare one parameter: plain names via `declare`, patterns via
`walkPattern`. -/
def semDeclareParam (f : Nat) (p : String ⊕ Node) (st : SemState) :
    Except JsErr SemState :=
  match p with
  | .inl name => .ok (semDeclare name st)
  | .inr pat => walkPattern f pat st

/-- `check` applied to a possibly-null child (`if (!node) return`). -/
def semCheckOpt (recCheck : Node → SemState → Except JsErr SemState)
    (o : Option Node) (st : SemState) : Except JsErr SemState :=
  match o with
  | none => .ok st
  | some n => recCheck n st

/-- One step of `check(node)`, transcribed case by case; `recCheck` is the
recursive call (one fuel layer down). -/
def semCheckStep (f : Nat) (recCheck : Node → SemState → Except JsErr SemState)
    (node : Node) (st : SemState) : Except JsErr SemState :=
    let checkOpt := semCheckOpt recCheck
    match node with
    | .program body => body.foldlM (fun st n => recCheck n st) st
    | .functionDeclaration name params body _ => do
        let st := semDeclare name st
        let st := enterScope st
        let st ← params.foldlM (fun st p => semDeclareParam f p st) st
        let st ← recCheck body st
        pure (exitScope st)
    | .functionExpression name params body _ _ => do
        let st := match name with
          | some n => semDeclare n st
          | none => st
        let st := enterScope st
        let st ← params.foldlM (fun st p => semDeclareParam f p st) st
        let st ← recCheck body st
        pure (exitScope st)
    | .classDeclaration name superClass body => do
        let st := semDeclare name st
        let st ← checkOpt superClass st
        let st := enterScope st
        let st ← body.foldlM (fun st m => recCheck m st) st
        pure (exitScope st)
    | .classExpression name superClass body => do
        let st := match name with
          | some n => semDeclare n st
          | none => st
        let st ← checkOpt superClass st
        let st := enterScope st
        let st ← body.foldlM (fun st m => recCheck m st) st
        pure (exitScope st)
    | .methodDefinition _ _ params body _ _ _ => do
        let st := enterScope st
        let st ← params.foldlM (fun st p => semDeclareParam f p st) st
        let st ← recCheck body st
        pure (exitScope st)
    | .variableDeclaration _ declarations =>
        declarations.foldlM
          (fun st (decl : Node × Option Node) => do
            let st ←
              match decl.1 with
              | .identifier name => pure (semDeclare name st)
              | pat => walkPattern f pat st
            checkOpt decl.2 st)
          st
    | .blockStatement body => do
        let st := enterScope st
        let st ← body.foldlM (fun st n => recCheck n st) st
        pure (exitScope st)
    | .ifStatement test consequent alternate => do
        let st ← recCheck test st
        let st ← recCheck consequent st
        checkOpt alternate st
    | .whileStatement test body => do
        let st ← recCheck test st
        recCheck body st
    | .forStatement init test update body => do
        let st := enterScope st
        let st ← checkOpt init st
        let st ← checkOpt test st
        let st ← checkOpt update st
        let st ← recCheck body st
        pure (exitScope st)
    | .forInStatement left right body => do
        let st := enterScope st
        -- `node.left.type` on a null left is a dynamic TypeError
        let st ←
          match left with
          | some (.identifier name) => pure (semDeclare name st)
          | some pat => walkPattern f pat st
          | none => .error (.typeErr "Cannot read properties of null")
        let st ← recCheck right st
        let st ← recCheck body st
        pure (exitScope st)
    | .forOfStatement left right body => do
        let st := enterScope st
        let st ←
          match left with
          | some (.identifier name) => pure (semDeclare name st)
          | some pat => walkPattern f pat st
          | none => .error (.typeErr "Cannot read properties of null")
        let st ← recCheck right st
        let st ← recCheck body st
        pure (exitScope st)
    | .returnStatement argument => checkOpt argument st
    | .breakStatement => .ok st
    | .continueStatement => .ok st
    | .throwStatement argument => recCheck argument st
    | .tryStatement block catchClause finalizer => do
        let st ← recCheck block st
        let st ←
          match catchClause with
          | some pb => do
              let st := enterScope st
              let st ←
                match pb.1 with
                | .identifier name => pure (semDeclare name st)
                | pat => walkPattern f pat st
              let st ← recCheck pb.2 st
              pure (exitScope st)
          | none => pure st
        checkOpt finalizer st
    | .switchStatement discriminant cases => do
        let st ← recCheck discriminant st
        cases.foldlM
          (fun st (c : Option Node × List Node) => do
            let st ← checkOpt c.1 st
            let st := enterScope st
            let st ← c.2.foldlM (fun st n => recCheck n st) st
            pure (exitScope st))
          st
    | .importDeclaration specifiers _ =>
        .ok (specifiers.foldl
          (fun st spec =>
            match spec with
            | .defaultSpec lcl => semDeclare lcl st
            | .named _ lcl => semDeclare lcl st
            | .nsSpec lcl => semDeclare lcl st)
          st)
    | .exportDefaultDeclaration declaration => recCheck declaration st
    | .exportNamedDeclaration declaration _ _ => checkOpt declaration st
    | .expressionStatement expression => recCheck expression st
    | .callExpression callee args _ => do
        let st ← recCheck callee st
        args.foldlM (fun st a => recCheck a st) st
    | .memberExpression object prop _ _ => do
        let st ← recCheck object st
        recCheck prop st
    | .arrayExpression elements =>
        elements.foldlM (fun st e => checkOpt e st) st
    | .objectExpression properties =>
        properties.foldlM
          (fun st p =>
            match p with
            | .property key value _ _ _ => do
                let st ← recCheck key st
                recCheck value st
            | other => recCheck other st)
          st
    | .assignmentExpression _ left right => do
        -- the grouped case reads `node.left || node.argument || node.test`
        let st ← recCheck left st
        recCheck right st
    | .binaryExpression _ left right => do
        let st ← recCheck left st
        recCheck right st
    | .logicalExpression _ left right => do
        let st ← recCheck left st
        recCheck right st
    | .unaryExpression _ argument _ => recCheck argument st
    | .updateExpression _ argument _ => recCheck argument st
    | .conditionalExpression test consequent alternate => do
        let st ← recCheck test st
        let st ← recCheck consequent st
        recCheck alternate st
    | .identifier name =>
        if !semLookup name st && !isGlobalName name then
          .ok { st with errors :=
            st.errors ++ [⟨"Undefined variable: " ++ name, Or.inr ⟨name, rfl⟩⟩] }
        else .ok st
    | .thisExpression => .ok st
    | .superNode => .ok st
    | .literal _ => .ok st
    | .templateLiteral _ expressions =>
        expressions.foldlM (fun st e => recCheck e st) st
    | .newExpression callee args => do
        let st ← recCheck callee st
        args.foldlM (fun st a => recCheck a st) st
    | .yieldExpression argument _ => checkOpt argument st
    | .importExpression source => recCheck source st
    | .property _ _ _ _ _ => .ok st        -- default: console.warn, no effect
    | .objectPattern _ => .ok st           -- default: console.warn, no effect
    | .arrayPattern _ => .ok st            -- default: console.warn, no effect

/-- `check(node)` with fuel. -/
def semCheck : Nat → Node → SemState → Except JsErr SemState
  | 0, _, _ => .error .fuel
  | f + 1, node, st => semCheckStep f (semCheck f) node st

/-- `validateSemantics(ast)`: walk the whole tree, then fail atomically with
all collected messages, or return. -/
def validateSemantics (fuel : Nat) (ast : Node) : Except JsErr Unit := do
  let st ← semCheck fuel ast { scopes := [[]], errors := [] }
  if st.errors.length > 0 then
    throw (.err ("Semantic errors:\n" ++ String.intercalate "\n" (st.errors.map SemMsg.msg)))
  else pure ()

-- ==================== BYTECODE GENERATOR ====================

namespace OP

def PUSH_CONST : Nat := 0x01
def POP : Nat := 0x02
def DUP : Nat := 0x03
def SWAP : Nat := 0x04
def LOAD_VAR : Nat := 0x05
def STORE_VAR : Nat := 0x06
def LOAD_GLOBAL : Nat := 0x07
def STORE_GLOBAL : Nat := 0x08
def ADD : Nat := 0x09
def SUB : Nat := 0x0A
def MUL : Nat := 0x0B
def DIV : Nat := 0x0C
def MOD : Nat := 0x0D
def EQ : Nat := 0x0E
def NEQ : Nat := 0x0F
def LT : Nat := 0x10
def GT : Nat := 0x11
def LTE : Nat := 0x12
def GTE : Nat := 0x13
def AND : Nat := 0x14
def OR : Nat := 0x15
def NOT : Nat := 0x16
def BIT_AND : Nat := 0x17
def BIT_OR : Nat := 0x18
def BIT_XOR : Nat := 0x19
def BIT_NOT : Nat := 0x1A
def SHL : Nat := 0x1B
def SHR : Nat := 0x1C
def USHR : Nat := 0x1D
def NEG : Nat := 0x1E
def POS : Nat := 0x1F
def JMP : Nat := 0x20
def JZ : Nat := 0x21
def JNZ : Nat := 0x22
def CALL : Nat := 0x23
def RETURN : Nat := 0x24
def ENTER_FUNC : Nat := 0x25
def EXIT_FUNC : Nat := 0x26
def NEW_ARRAY : Nat := 0x27
def NEW_OBJECT : Nat := 0x28
def SET_PROP : Nat := 0x29
def GET_PROP : Nat := 0x2A
def SET_PROP_COMPUTED : Nat := 0x2B
def GET_PROP_COMPUTED : Nat := 0x2C
def DELETE_PROP : Nat := 0x2D
def HAS_PROP : Nat := 0x2E
def TYPEOF : Nat := 0x2F
def NEW_CLASS : Nat := 0x30
def DEFINE_METHOD : Nat := 0x31
def DEFINE_GETTER : Nat := 0x32
def DEFINE_SETTER : Nat := 0x33
def INVOKE_SUPER : Nat := 0x34
def SUPER_CTOR : Nat := 0x35
def INSTANCEOF : Nat := 0x36
def IN_OP : Nat := 0x37
def POW : Nat := 0x38
def COALESCE : Nat := 0x39
def IMPORT : Nat := 0x40
def EXPORT : Nat := 0x41
def IMPORT_DEFAULT : Nat := 0x42
def EXPORT_DEFAULT : Nat := 0x43
def IMPORT_DYNAMIC : Nat := 0x44
def AWAIT : Nat := 0x50
def ASYNC_FUNC : Nat := 0x51
def YIELD : Nat := 0x52
def GENERATOR : Nat := 0x53
def NEXT : Nat := 0x54
def THROW_GEN : Nat := 0x55
def RETURN_GEN : Nat := 0x56
def YIELD_DELEGATE : Nat := 0x57
def GET_ITERATOR : Nat := 0x60
def ITER_NEXT : Nat := 0x61
def ITER_DONE : Nat := 0x62
def THROW : Nat := 0x70
def CATCH : Nat := 0x71
def FINALLY : Nat := 0x72
def END_CATCH : Nat := 0x73
def GET_ELEMENT : Nat := 0x80
def SET_ATTRIBUTE : Nat := 0x81
def GET_ATTRIBUTE : Nat := 0x82
def ADD_EVENT : Nat := 0x83
def REMOVE_EVENT : Nat := 0x84
def FETCH : Nat := 0x85
def WEBSOCKET : Nat := 0x86
def TIMER : Nat := 0x87
def DOM_QUERY : Nat := 0x88
def CALL_HOST : Nat := 0x90
def GET_HOST : Nat := 0x91
def SET_HOST : Nat := 0x92
def DEBUGGER : Nat := 0xF0
def HALT : Nat := 0xFF

end OP

/-- `emitU32(value)`: big-endian bytes of a non-negative 32-bit value
(`(value >> k) & 0xFF`). -/
def u32Bytes (value : Nat) : List Nat :=
  [(value >>> 24) &&& 0xFF, (value >>> 16) &&& 0xFF, (value >>> 8) &&& 0xFF,
   value &&& 0xFF]

/-- `emitU16(value)` for a possibly negative displacement: JavaScript's
`(value >> 8) & 0xFF, value & 0xFF` on a 32-bit two's-complement value equals
the big-endian bytes of `value mod 2^16`. -/
def u16BytesI (value : Int) : List Nat :=
  let w := (value % 65536).toNat
  [w / 256, w % 256]

/-- Patch the two displacement bytes at index `i` of an emitted chunk
(`bytecode[i] = (offset >> 8) & 0xFF; bytecode[i+1] = offset & 0xFF`). -/
def patch2 (d : List Nat) (i : Nat) (value : Int) : List Nat :=
  let w := (value % 65536).toNat
  (d.set i (w / 256)).set (i + 1) (w % 256)

/-- The compiler-introduced synthetic variable names. -/
def syntheticNames : List String :=
  ["$temp", "$iterator", "$switch", "$objTemp", "$propTemp"]

/-- A synthetic name together with the fact that it is one of the five. -/
abbrev SynthName := {s : String // s ∈ syntheticNames}

/-- A loop frame: `\x7b start, end, breakPatches, continuePatches \x7d`
(the `end` field is written but never read, so it is not modelled). -/
structure LoopFrame where
  start : Nat
  breakPatches : List Nat
  continuePatches : List Nat

/-- The emitter state threaded through `generateBytecode`: the constant pool
(with its deduplication map implicit in first-occurrence indices) and the loop
stack (head = innermost).  `synthNames` is a ghost trace of every synthetic
temporary name the emitter introduces, recorded at exactly the
`addConstant('$…')` sites; it does not influence emission.
`functionStarts` and `callPatches` are not modelled: `functionStarts` is only
ever queried with `has` to guard an empty branch of `CallExpression`, and
`callPatches` stays empty, so neither affects a single emitted byte. -/
structure GenState where
  constants : List JsVal
  loopStack : List LoopFrame
  synthNames : List SynthName

/-- `addConstant(value)`: dedup by SameValueZero equality, else append. -/
def addConstant (v : JsVal) (st : GenState) : Nat × GenState :=
  match st.constants.findIdx? (fun c => c = v) with
  | some i => (i, st)
  | none => (st.constants.length, { st with constants := st.constants ++ [v] })

/-- Record one synthetic-temporary use (ghost). -/
def noteSynth (n : SynthName) (st : GenState) : GenState :=
  { st with synthNames := st.synthNames ++ [n] }

/-- `isHostCall(name)`. -/
def isHostCall (name : String) : Bool :=
  ["document", "window", "fetch", "setTimeout", "setInterval", "WebSocket",
   "console"].contains name

/-- The JavaScript `node.type` string (used in the emitter's default-case
error message). -/
def Node.typeName : Node → String
  | .program _ => "Program"
  | .functionDeclaration _ _ _ _ => "FunctionDeclaration"
  | .functionExpression _ _ _ _ _ => "FunctionExpression"
  | .classDeclaration _ _ _ => "ClassDeclaration"
  | .classExpression _ _ _ => "ClassExpression"
  | .methodDefinition _ _ _ _ _ _ _ => "MethodDefinition"
  | .variableDeclaration _ _ => "VariableDeclaration"
  | .blockStatement _ => "BlockStatement"
  | .ifStatement _ _ _ => "IfStatement"
  | .whileStatement _ _ => "WhileStatement"
  | .forStatement _ _ _ _ => "ForStatement"
  | .forInStatement _ _ _ => "ForInStatement"
  | .forOfStatement _ _ _ => "ForOfStatement"
  | .returnStatement _ => "ReturnStatement"
  | .breakStatement => "BreakStatement"
  | .continueStatement => "ContinueStatement"
  | .throwStatement _ => "ThrowStatement"
  | .tryStatement _ _ _ => "TryStatement"
  | .switchStatement _ _ => "SwitchStatement"
  | .importDeclaration _ _ => "ImportDeclaration"
  | .exportNamedDeclaration _ _ _ => "ExportNamedDeclaration"
  | .exportDefaultDeclaration _ => "ExportDefaultDeclaration"
  | .expressionStatement _ => "ExpressionStatement"
  | .callExpression _ _ _ => "CallExpression"
  | .memberExpression _ _ _ _ => "MemberExpression"
  | .arrayExpression _ => "ArrayExpression"
  | .objectExpression _ => "ObjectExpression"
  | .property _ _ _ _ _ => "Property"
  | .assignmentExpression _ _ _ => "AssignmentExpression"
  | .binaryExpression _ _ _ => "BinaryExpression"
  | .logicalExpression _ _ _ => "LogicalExpression"
  | .unaryExpression _ _ _ => "UnaryExpression"
  | .updateExpression _ _ _ => "UpdateExpression"
  | .conditionalExpression _ _ _ => "ConditionalExpression"
  | .identifier _ => "Identifier"
  | .literal _ => "Literal"
  | .thisExpression => "ThisExpression"
  | .superNode => "Super"
  | .templateLiteral _ _ => "TemplateLiteral"
  | .newExpression _ _ => "NewExpression"
  | .yieldExpression _ _ => "YieldExpression"
  | .importExpression _ => "ImportExpression"
  | .objectPattern _ => "ObjectPattern"
  | .arrayPattern _ => "ArrayPattern"

/-- `node.property.name` viewed as a constant (`undefined` when the property
node is not an identifier, mirroring reading `.name` off another node). -/
def nodeNameVal : Node → JsVal
  | .identifier n => .vstr n
  | _ => JsVal.vundef

/-- `emitDestructuring(pattern)`: the value to destructure is on the stack.
For an object pattern the source emits *both* a `DUP`-based pass and a
`$temp`-based pass, one after the other. -/
def emitDestructuring : Nat → Node → GenState → Except JsErr (List Nat × GenState)
  | 0, _, _ => .error .fuel
  | f + 1, pat, st =>
    match pat with
    | .identifier name =>
        let (nameIdx, st) := addConstant (.vstr name) st
        .ok ([OP.STORE_VAR] ++ u32Bytes nameIdx, st)
    | .objectPattern props => do
        -- first (DUP-based) pass
        let (d, st) ← props.foldlM
          (fun (acc : List Nat × GenState) (kv : String × Node) => do
            let d := acc.1 ++ [OP.DUP]
            let (keyIdx, st) := addConstant (.vstr kv.1) acc.2
            let d := d ++ [OP.GET_PROP] ++ u32Bytes keyIdx
            match kv.2 with
            | .identifier name =>
                let (nameIdx, st) := addConstant (.vstr name) st
                pure (d ++ [OP.STORE_VAR] ++ u32Bytes nameIdx, st)
            | sub => do
                let (ds, st) ← emitDestructuring f sub st
                pure (d ++ ds, st))
          ([], st)
        -- second ($temp-based) pass
        let (tempIdx, st) := addConstant (.vstr "$temp") st
        let st := noteSynth ⟨"$temp", by decide⟩ st
        let d := d ++ [OP.STORE_VAR] ++ u32Bytes tempIdx
        props.foldlM
          (fun (acc : List Nat × GenState) (kv : String × Node) => do
            let d := acc.1 ++ [OP.LOAD_VAR] ++ u32Bytes tempIdx
            let (keyIdx, st) := addConstant (.vstr kv.1) acc.2
            let d := d ++ [OP.GET_PROP] ++ u32Bytes keyIdx
            match kv.2 with
            | .identifier name =>
                let (nameIdx, st) := addConstant (.vstr name) st
                pure (d ++ [OP.STORE_VAR] ++ u32Bytes nameIdx, st)
            | sub => do
                let (ds, st) ← emitDestructuring f sub st
                pure (d ++ ds, st))
          (d, st)
    | .arrayPattern elems => do
        let (tempIdx, st) := addConstant (.vstr "$temp") st
        let st := noteSynth ⟨"$temp", by decide⟩ st
        let d := [OP.STORE_VAR] ++ u32Bytes tempIdx
        let out ← elems.foldlM
          (fun (acc : List Nat × GenState × Nat) (e : Option Node) => do
            let (d, st, index) := acc
            match e with
            | none => pure (d, st, index + 1)   -- hole: ignore
            | some elem => do
                let d := d ++ [OP.LOAD_VAR] ++ u32Bytes tempIdx
                let (idxIdx, st) := addConstant (.vnum (.num index)) st
                let d := d ++ [OP.PUSH_CONST] ++ u32Bytes idxIdx ++ [OP.GET_PROP_COMPUTED]
                match elem with
                | .identifier name =>
                    let (nameIdx, st) := addConstant (.vstr name) st
                    pure (d ++ [OP.STORE_VAR] ++ u32Bytes nameIdx, st, index + 1)
                | sub => do
                    let (ds, st) ← emitDestructuring f sub st
                    pure (d ++ ds, st, index + 1))
          (d, st, 0)
        pure (out.1, out.2.1)
    | _ => .ok ([], st)

/-- Sequential emission of a statement/argument list (`xs.forEach(generate)`),
threading the absolute position. -/
def genSeq (recGen : Nat → Node → GenState → Except JsErr (List Nat × GenState))
    (base : Nat) (ns : List Node) (st : GenState) :
    Except JsErr (List Nat × GenState) :=
  ns.foldlM
    (fun (acc : List Nat × GenState) n => do
      let (dn, st) ← recGen (base + acc.1.length) n acc.2
      pure (acc.1 ++ dn, st))
    ([], st)

/-- The shared `FunctionDeclaration` / `FunctionExpression` case.  (The
`functionStarts.set(node.name, startIdx)` bookkeeping is not modelled: the map
is only ever queried to guard an empty branch.) -/
def genFunctionLike (f : Nat)
    (recGen : Nat → Node → GenState → Except JsErr (List Nat × GenState))
    (base : Nat) (params : List (String ⊕ Node)) (body : Node) (async : Bool)
    (st : GenState) : Except JsErr (List Nat × GenState) := do
  let d := if async then [OP.ASYNC_FUNC] else []
  let d := d ++ [OP.ENTER_FUNC]
  let (d, st) ← params.foldlM
    (fun (acc : List Nat × GenState) p =>
      match p with
      | .inl pname =>
          let (nameIdx, st) := addConstant (.vstr pname) acc.2
          pure (acc.1 ++ [OP.STORE_VAR] ++ u32Bytes nameIdx, st)
      | .inr pat => do
          let (dp, st) ← emitDestructuring f pat acc.2
          pure (acc.1 ++ dp, st))
    (d, st)
  let (db, st) ← recGen (base + d.length) body st
  let d := d ++ db
  let (undefIdx, st) := addConstant .vundef st
  pure (d ++ [OP.PUSH_CONST] ++ u32Bytes undefIdx ++ [OP.RETURN], st)

/-- The `opMap` of compound assignment. -/
def compOpMap : String → Option Nat
  | "+" => some OP.ADD
  | "-" => some OP.SUB
  | "*" => some OP.MUL
  | "/" => some OP.DIV
  | "%" => some OP.MOD
  | "<<" => some OP.SHL
  | ">>" => some OP.SHR
  | ">>>" => some OP.USHR
  | "&" => some OP.BIT_AND
  | "|" => some OP.BIT_OR
  | "^" => some OP.BIT_XOR
  | "**" => some OP.POW
  | "&&" => some OP.AND
  | "||" => some OP.OR
  | "??" => some OP.COALESCE
  | _ => none

/-- The `BinaryExpression` operator switch; note `===` and `!==` have no case
and fall to the `Unsupported binary operator` error. -/
def binOpCode : String → Option Nat
  | "+" => some OP.ADD
  | "-" => some OP.SUB
  | "*" => some OP.MUL
  | "/" => some OP.DIV
  | "%" => some OP.MOD
  | "==" => some OP.EQ
  | "!=" => some OP.NEQ
  | "<" => some OP.LT
  | ">" => some OP.GT
  | "<=" => some OP.LTE
  | ">=" => some OP.GTE
  | "&" => some OP.BIT_AND
  | "|" => some OP.BIT_OR
  | "^" => some OP.BIT_XOR
  | "<<" => some OP.SHL
  | ">>" => some OP.SHR
  | ">>>" => some OP.USHR
  | "**" => some OP.POW
  | "in" => some OP.IN_OP
  | "instanceof" => some OP.INSTANCEOF
  | _ => none

/-- The shared `ForInStatement` / `ForOfStatement` case (iterator protocol
over the synthetic `$iterator`). -/
def genForIter (f : Nat)
    (recGen : Nat → Node → GenState → Except JsErr (List Nat × GenState))
    (base : Nat) (left : Option Node) (right : Node) (body : Node)
    (st : GenState) : Except JsErr (List Nat × GenState) := do
  let (iteratorVar, st) := addConstant (.vstr "$iterator") st
  let st := noteSynth ⟨"$iterator", by decide⟩ st
  let (nextMethodVar, st) := addConstant (.vstr "next") st
  let (doneVar, st) := addConstant (.vstr "done") st
  let (valueVar, st) := addConstant (.vstr "value") st
  let (dr, st) ← recGen base right st
  let d := dr ++ [OP.GET_ITERATOR, OP.STORE_VAR] ++ u32Bytes iteratorVar
  let loopStart := base + d.length
  let st := { st with loopStack :=
    { start := loopStart, breakPatches := [], continuePatches := [] } :: st.loopStack }
  let d := d ++ [OP.LOAD_VAR] ++ u32Bytes iteratorVar
    ++ [OP.GET_PROP] ++ u32Bytes nextMethodVar
    ++ [OP.LOAD_VAR] ++ u32Bytes iteratorVar
    ++ [OP.CALL] ++ u32Bytes 1
    ++ [OP.DUP, OP.GET_PROP] ++ u32Bytes doneVar
    ++ [OP.JNZ]
  let jzPlaceholderPos := base + d.length
  let d := d ++ [0, 0]
  let d := d ++ [OP.GET_PROP] ++ u32Bytes valueVar
  let (d, st) ←
    match left with
    | some (.identifier name) =>
        let (nameIdx, st) := addConstant (.vstr name) st
        pure (d ++ [OP.STORE_VAR] ++ u32Bytes nameIdx, st)
    | some pat => do
        let (dp, st) ← emitDestructuring f pat st
        pure (d ++ dp, st)
    | none => .error (.typeErr "Cannot read properties of null")
  let (db, st) ← recGen (base + d.length) body st
  let d := d ++ db
  let continueTarget := base + d.length
  let d := d ++ [OP.JMP]
  let backOffset : Int := (loopStart : Int) - ((base + d.length + 3 : Nat) : Int)
  let d := d ++ u16BytesI backOffset
  let afterLoop := base + d.length
  -- `afterLoop - (jzPlaceholderPos - 2)` — the source's own offset arithmetic
  let jzOffset : Int := (afterLoop : Int) - ((jzPlaceholderPos : Int) - 2)
  let d := patch2 d (jzPlaceholderPos - base) jzOffset
  match st.loopStack with
  | loop :: restStack =>
      let st := { st with loopStack := restStack }
      let d := loop.breakPatches.foldl
        (fun d pos => patch2 d (pos + 1 - base) ((afterLoop : Int) - ((pos : Int) + 3))) d
      let d := loop.continuePatches.foldl
        (fun d pos => patch2 d (pos + 1 - base) ((continueTarget : Int) - ((pos : Int) + 3))) d
      pure (d, st)
  | [] => pure (d, st)

/-- The `AssignmentExpression` case (simple, destructuring, compound and
logical-compound forms). -/
def genAssignment (f : Nat)
    (recGen : Nat → Node → GenState → Except JsErr (List Nat × GenState))
    (base : Nat) (operator : String) (left right : Node)
    (st : GenState) : Except JsErr (List Nat × GenState) := do
  let isCompound := operator ≠ "=" && operator.endsWith "="
  if !isCompound then
    match left with
    | .identifier name => do
        let (dr, st) ← recGen base right st
        let (nameIdx, st) := addConstant (.vstr name) st
        pure (dr ++ [OP.STORE_VAR] ++ u32Bytes nameIdx, st)
    | .memberExpression obj prop computed _ => do
        let (dobj, st) ← recGen base obj st
        let (dr, st) ← recGen (base + dobj.length) right st
        let d := dobj ++ dr
        if computed then do
          let (dp, st) ← recGen (base + d.length) prop st
          pure (d ++ dp ++ [OP.SET_PROP_COMPUTED], st)
        else
          let (propIdx, st) := addConstant (nodeNameVal prop) st
          pure (d ++ [OP.SET_PROP] ++ u32Bytes propIdx, st)
    | pat => do
        let (dr, st) ← recGen base right st
        let d := dr ++ [OP.DUP]
        let (dd, st) ← emitDestructuring f pat st
        pure (d ++ dd, st)
  else
    let baseOp := operator.dropRight 1
    match compOpMap baseOp with
    | none => .error (.err ("Unsupported compound operator: " ++ operator))
    | some binaryOp =>
      if baseOp = "&&" || baseOp = "||" || baseOp = "??" then
        match left with
        | .identifier name => do
            let (nameIdx, st) := addConstant (.vstr name) st
            let d := [OP.LOAD_VAR] ++ u32Bytes nameIdx ++ [OP.DUP]
            let d := d ++ [if baseOp = "&&" then OP.JZ else OP.JNZ]
            let jmpPos := base + d.length   -- the placeholder start
            let d := d ++ [0, 0]
            let (dr, st) ← recGen (base + d.length) right st
            let d := d ++ dr ++ [OP.STORE_VAR] ++ u32Bytes nameIdx
            let afterPos := base + d.length
            -- the source patches at jmpPos+1 / jmpPos+2 (one past the
            -- placeholder) and measures from jmpPos+3
            let d := patch2 d (jmpPos + 1 - base)
              ((afterPos : Int) - ((jmpPos : Int) + 3))
            pure (d, st)
        | .memberExpression _ _ _ _ =>
            .error (.err "Logical assignment with member expression not implemented")
        | _ => .error (.err "Logical assignment with destructuring not implemented")
      else
        match left with
        | .identifier name => do
            let (nameIdx, st) := addConstant (.vstr name) st
            let d := [OP.LOAD_VAR] ++ u32Bytes nameIdx
            let (dr, st) ← recGen (base + d.length) right st
            pure (d ++ dr ++ [binaryOp, OP.STORE_VAR] ++ u32Bytes nameIdx, st)
        | .memberExpression obj prop computed _ => do
            let (objTemp, st) := addConstant (.vstr "$objTemp") st
            let st := noteSynth ⟨"$objTemp", by decide⟩ st
            let (propTemp, st) :=
              if computed then
                let (pt, st) := addConstant (.vstr "$propTemp") st
                (pt, noteSynth ⟨"$propTemp", by decide⟩ st)
              else (0, st)
            let (dobj, st) ← recGen base obj st
            let d := dobj ++ [OP.STORE_VAR] ++ u32Bytes objTemp
            let (d, st) ←
              if computed then do
                let (dp, st) ← recGen (base + d.length) prop st
                pure (d ++ dp ++ [OP.STORE_VAR] ++ u32Bytes propTemp, st)
              else pure (d, st)
            let d := d ++ [OP.LOAD_VAR] ++ u32Bytes objTemp
            let (d, st) ←
              if computed then
                pure (d ++ [OP.LOAD_VAR] ++ u32Bytes propTemp ++ [OP.GET_PROP_COMPUTED], st)
              else
                let (propIdx, st) := addConstant (nodeNameVal prop) st
                pure (d ++ [OP.GET_PROP] ++ u32Bytes propIdx, st)
            let (dr, st) ← recGen (base + d.length) right st
            let d := d ++ dr ++ [binaryOp]
            let d := d ++ [OP.LOAD_VAR] ++ u32Bytes objTemp
            let (d, st) ←
              if computed then
                pure (d ++ [OP.LOAD_VAR] ++ u32Bytes propTemp ++ [OP.SET_PROP_COMPUTED], st)
              else
                let (propIdx, st) := addConstant (nodeNameVal prop) st
                pure (d ++ [OP.SET_PROP] ++ u32Bytes propIdx, st)
            pure (d, st)
        | _ => .error (.err "Compound assignment with destructuring not implemented")

/-- The `UpdateExpression` case. -/
def genUpdate (_f : Nat)
    (recGen : Nat → Node → GenState → Except JsErr (List Nat × GenState))
    (base : Nat) (operator : String) (argument : Node) (pfx : Bool)
    (st : GenState) : Except JsErr (List Nat × GenState) :=
  match argument with
  | .identifier name => do
      let (nameIdx, st) := addConstant (.vstr name) st
      let d := [OP.LOAD_VAR] ++ u32Bytes nameIdx
      let d := if !pfx then d ++ [OP.DUP] else d
      let (oneIdx, st) := addConstant (.vnum (.num 1)) st
      let d := d ++ [OP.PUSH_CONST] ++ u32Bytes oneIdx
      let d := d ++ [if operator = "++" then OP.ADD else OP.SUB]
      pure (d ++ [OP.STORE_VAR] ++ u32Bytes nameIdx, st)
  | .memberExpression obj prop computed _ => do
      let (objTemp, st) := addConstant (.vstr "$objTemp") st
      let st := noteSynth ⟨"$objTemp", by decide⟩ st
      let (propTemp, st) :=
        if computed then
          let (pt, st) := addConstant (.vstr "$propTemp") st
          (pt, noteSynth ⟨"$propTemp", by decide⟩ st)
        else (0, st)
      let (dobj, st) ← recGen base obj st
      let d := dobj ++ [OP.STORE_VAR] ++ u32Bytes objTemp
      let (d, st) ←
        if computed then do
          let (dp, st) ← recGen (base + d.length) prop st
          pure (d ++ dp ++ [OP.STORE_VAR] ++ u32Bytes propTemp, st)
        else pure (d, st)
      let d := d ++ [OP.LOAD_VAR] ++ u32Bytes objTemp
      let (d, st) ←
        if computed then
          pure (d ++ [OP.LOAD_VAR] ++ u32Bytes propTemp ++ [OP.GET_PROP_COMPUTED], st)
        else
          let (propIdx, st) := addConstant (nodeNameVal prop) st
          pure (d ++ [OP.GET_PROP] ++ u32Bytes propIdx, st)
      let d := if !pfx then d ++ [OP.DUP] else d
      let (oneIdx, st) := addConstant (.vnum (.num 1)) st
      let d := d ++ [OP.PUSH_CONST] ++ u32Bytes oneIdx
      let d := d ++ [if operator = "++" then OP.ADD else OP.SUB]
      let d := d ++ [OP.LOAD_VAR] ++ u32Bytes objTemp
      let (d, st) ←
        if computed then
          pure (d ++ [OP.LOAD_VAR] ++ u32Bytes propTemp ++ [OP.SET_PROP_COMPUTED], st)
        else
          let (propIdx, st) := addConstant (nodeNameVal prop) st
          pure (d ++ [OP.SET_PROP] ++ u32Bytes propIdx, st)
      pure (d, st)
  | _ => .ok ([], st)   -- no other argument shapes are handled

/-- One step of `generate(node)`.  The emitted bytes of the node are returned
as a chunk (`d`); `base` is the absolute offset at which the chunk begins
(`bytecode.length` on entry in the source), so every position and displacement
computation below mirrors the source expression for it, and forward patches
are `patch2` writes into the chunk at `absolute - base`. -/
def genStep (f : Nat)
    (recGen : Nat → Node → GenState → Except JsErr (List Nat × GenState))
    (base : Nat) (node : Node) (st : GenState) :
    Except JsErr (List Nat × GenState) :=
  match node with
  | .program body => do
      let (d, st) ← genSeq recGen base body st
      pure (d ++ [OP.HALT], st)
  | .functionDeclaration _ params body async =>
      genFunctionLike f recGen base params body async st
  | .functionExpression _ params body async _ =>
      genFunctionLike f recGen base params body async st
  | .blockStatement body => genSeq recGen base body st
  | .variableDeclaration _ declarations =>
      declarations.foldlM
        (fun (acc : List Nat × GenState) (decl : Node × Option Node) => do
          let (d, st) := acc
          let (d, st) ←
            match decl.2 with
            | some init => do
                let (di, st) ← recGen (base + d.length) init st
                pure (d ++ di, st)
            | none =>
                let (undefIdx, st) := addConstant .vundef st
                pure (d ++ [OP.PUSH_CONST] ++ u32Bytes undefIdx, st)
          match decl.1 with
          | .identifier name =>
              let (nameIdx, st) := addConstant (.vstr name) st
              pure (d ++ [OP.STORE_VAR] ++ u32Bytes nameIdx, st)
          | pat => do
              let (dd, st) ← emitDestructuring f pat st
              pure (d ++ dd, st))
        ([], st)
  | .ifStatement test consequent alternate => do
      let (dt, st) ← recGen base test st
      let jzIdx := base + dt.length
      let d := dt ++ [OP.JZ, 0, 0]
      let (dc, st) ← recGen (base + d.length) consequent st
      let d := d ++ dc
      match alternate with
      | some alt =>
          let jmpIdx := base + d.length
          let d := d ++ [OP.JMP, 0, 0]
          -- `elseOffset = jmpIdx - (jzIdx + 3)`: the JZ lands on the JMP
          -- instruction itself, not past it
          let elseOffset : Int := (jmpIdx : Int) - ((jzIdx : Int) + 3)
          let d := patch2 d (jzIdx + 1 - base) elseOffset
          let (da, st) ← recGen (base + d.length) alt st
          let d := d ++ da
          let endOffset : Int := ((base + d.length : Nat) : Int) - ((jmpIdx : Int) + 3)
          let d := patch2 d (jmpIdx + 1 - base) endOffset
          pure (d, st)
      | none =>
          let afterOffset : Int := ((base + d.length : Nat) : Int) - ((jzIdx : Int) + 3)
          let d := patch2 d (jzIdx + 1 - base) afterOffset
          pure (d, st)
  | .whileStatement test body => do
      let loopStart := base
      let st := { st with loopStack :=
        { start := loopStart, breakPatches := [], continuePatches := [] } :: st.loopStack }
      let (dt, st) ← recGen base test st
      let jzIdx := base + dt.length
      let d := dt ++ [OP.JZ, 0, 0]
      let (db, st) ← recGen (base + d.length) body st
      let d := d ++ db
      let continueTarget := base + d.length
      let d := d ++ [OP.JMP]
      -- `backOffset = loopStart - (bytecode.length + 3)` measured *after*
      -- pushing the JMP opcode
      let backOffset : Int := (loopStart : Int) - ((base + d.length + 3 : Nat) : Int)
      let d := d ++ u16BytesI backOffset
      let afterLoop := base + d.length
      let jzOffset : Int := (afterLoop : Int) - ((jzIdx : Int) + 3)
      let d := patch2 d (jzIdx + 1 - base) jzOffset
      match st.loopStack with
      | loop :: restStack =>
          let st := { st with loopStack := restStack }
          let d := loop.breakPatches.foldl
            (fun d pos => patch2 d (pos + 1 - base) ((afterLoop : Int) - ((pos : Int) + 3))) d
          let d := loop.continuePatches.foldl
            (fun d pos => patch2 d (pos + 1 - base) ((continueTarget : Int) - ((pos : Int) + 3))) d
          pure (d, st)
      | [] => pure (d, st)   -- unreachable: a frame was pushed above
  | .forStatement init test update body => do
      let (d0, st) ←
        match init with
        | some i => recGen base i st
        | none => pure (([] : List Nat), st)
      let loopStart := base + d0.length
      let st := { st with loopStack :=
        { start := loopStart, breakPatches := [], continuePatches := [] } :: st.loopStack }
      let (dt, st) ←
        match test with
        | some t => recGen loopStart t st
        | none =>
            let (trueIdx, st) := addConstant (.vbool true) st
            pure ([OP.PUSH_CONST] ++ u32Bytes trueIdx, st)
      let jzIdx := loopStart + dt.length
      let d := d0 ++ dt ++ [OP.JZ, 0, 0]
      let (db, st) ← recGen (base + d.length) body st
      let d := d ++ db
      let continueTarget := base + d.length
      let (d, st) ←
        match update with
        | some u => do
            let (du, st) ← recGen (base + d.length) u st
            pure (d ++ du, st)
        | none => pure (d, st)
      let d := d ++ [OP.JMP]
      let backOffset : Int := (loopStart : Int) - ((base + d.length + 3 : Nat) : Int)
      let d := d ++ u16BytesI backOffset
      let afterLoop := base + d.length
      let jzOffset : Int := (afterLoop : Int) - ((jzIdx : Int) + 3)
      let d := patch2 d (jzIdx + 1 - base) jzOffset
      match st.loopStack with
      | loop :: restStack =>
          let st := { st with loopStack := restStack }
          let d := loop.breakPatches.foldl
            (fun d pos => patch2 d (pos + 1 - base) ((afterLoop : Int) - ((pos : Int) + 3))) d
          let d := loop.continuePatches.foldl
            (fun d pos => patch2 d (pos + 1 - base) ((continueTarget : Int) - ((pos : Int) + 3))) d
          pure (d, st)
      | [] => pure (d, st)
  | .forInStatement left right body =>
      genForIter f recGen base left right body st
  | .forOfStatement left right body =>
      genForIter f recGen base left right body st
  | .breakStatement =>
      match st.loopStack with
      | [] => .error (.err "break outside loop")
      | loop :: restStack =>
          let jmpIdx := base
          let st := { st with loopStack :=
            { loop with breakPatches := loop.breakPatches ++ [jmpIdx] } :: restStack }
          .ok ([OP.JMP, 0, 0], st)
  | .continueStatement =>
      match st.loopStack with
      | [] => .error (.err "continue outside loop")
      | loop :: restStack =>
          let jmpIdx := base
          let st := { st with loopStack :=
            { loop with continuePatches := loop.continuePatches ++ [jmpIdx] } :: restStack }
          .ok ([OP.JMP, 0, 0], st)
  | .returnStatement argument => do
      let (d, st) ←
        match argument with
        | some a => recGen base a st
        | none =>
            let (undefIdx, st) := addConstant .vundef st
            pure ([OP.PUSH_CONST] ++ u32Bytes undefIdx, st)
      pure (d ++ [OP.RETURN], st)
  | .throwStatement argument => do
      let (d, st) ← recGen base argument st
      pure (d ++ [OP.THROW], st)
  | .tryStatement block catchClause finalizer => do
      let (d, st) ← recGen base block st
      let afterTryJmp : Option Nat :=
        if finalizer.isSome then some (base + d.length) else none
      let d := if finalizer.isSome then d ++ [OP.JMP, 0, 0] else d
      let (catchStart, d, st) ←
        match catchClause with
        | some pb => do
            let cs := base + d.length
            let d := d ++ [OP.CATCH]
            let (d, st) ←
              match pb.1 with
              | .identifier name =>
                  let (nameIdx, st) := addConstant (.vstr name) st
                  pure (d ++ [OP.STORE_VAR] ++ u32Bytes nameIdx, st)
              | pat => do
                  let (dp, st) ← emitDestructuring f pat st
                  pure (d ++ dp, st)
            let (dc, st) ← recGen (base + d.length) pb.2 st
            let d := d ++ dc ++ [OP.END_CATCH]
            -- with a finalizer a JMP placeholder is pushed here and never patched
            let d := if finalizer.isSome then d ++ [OP.JMP, 0, 0] else d
            pure ((some cs : Option Nat), d, st)
        | none => pure ((none : Option Nat), d, st)
      let (finallyStart, d, st) ←
        match finalizer with
        | some fin => do
            let fs := base + d.length
            let d := d ++ [OP.FINALLY]
            let (df, st) ← recGen (base + d.length) fin st
            pure ((some fs : Option Nat), d ++ df, st)
        | none => pure ((none : Option Nat), d, st)
      let d :=
        match afterTryJmp with
        | some jpos =>
            let target :=
              match catchStart with
              | some cs => cs
              | none =>
                  match finallyStart with
                  | some fs => fs
                  | none => base + d.length
            patch2 d (jpos + 1 - base) ((target : Int) - ((jpos : Int) + 3))
        | none => d
      pure (d, st)
  | .switchStatement discriminant cases => do
      let (dd, st) ← recGen base discriminant st
      let (tempIdx, st) := addConstant (.vstr "$switch") st
      let st := noteSynth ⟨"$switch", by decide⟩ st
      let d := dd ++ [OP.STORE_VAR] ++ u32Bytes tempIdx
      -- `afterSwitch` is recorded in the source but never used
      let res ← cases.enum.foldlM
        (fun (acc : List Nat × GenState × List (Nat × Nat) × List Nat)
             (ic : Nat × (Option Node × List Node)) => do
          let (d, st, caseJumps, defaultOffset) := acc
          match ic.2.1 with
          | some testE => do
              let d := d ++ [OP.LOAD_VAR] ++ u32Bytes tempIdx
              let (dt, st) ← recGen (base + d.length) testE st
              let d := d ++ dt ++ [OP.EQ]
              let jzPos := base + d.length
              let d := d ++ [OP.JZ, 0, 0]
              pure (d, st, caseJumps ++ [(jzPos, ic.1)], defaultOffset)
          | none => pure (d, st, caseJumps, defaultOffset ++ [ic.1]))
        (d, st, ([] : List (Nat × Nat)), ([] : List Nat))
      let (d, st, caseJumps, defaultOffset) := res
      let defaultJmpPos := base + d.length
      let d := d ++ [OP.JMP, 0, 0]
      let res2 ← cases.enum.foldlM
        (fun (acc : List Nat × GenState × List Nat)
             (ic : Nat × (Option Node × List Node)) => do
          let (d, st, caseStartPositions) := acc
          let caseStartPositions := caseStartPositions ++ [base + d.length]
          let (dc, st) ← genSeq recGen (base + d.length) ic.2.2 st
          let d := d ++ dc
          let d := d ++ [OP.JMP, 0, 0]   -- end-of-case jump, never patched
          -- patch the comparison JZ of this case to the *current* position
          let d := caseJumps.foldl
            (fun d jump =>
              if jump.2 = ic.1 then
                patch2 d (jump.1 + 1 - base)
                  (((base + d.length : Nat) : Int) - ((jump.1 : Int) + 3))
              else d) d
          pure (d, st, caseStartPositions))
        (d, st, ([] : List Nat))
      let (d, st, caseStartPositions) := res2
      let d :=
        match defaultOffset with
        | i :: _ =>
            let target := caseStartPositions.getD i 0
            patch2 d (defaultJmpPos + 1 - base)
              ((target : Int) - ((defaultJmpPos : Int) + 3))
        | [] =>
            let target := base + d.length
            patch2 d (defaultJmpPos + 1 - base)
              ((target : Int) - ((defaultJmpPos : Int) + 3))
      pure (d, st)
  | .importDeclaration specifiers source =>
      let (sourceIdx, st) := addConstant (.vstr source) st
      specifiers.foldlM
        (fun (acc : List Nat × GenState) spec =>
          match spec with
          | .defaultSpec lcl =>
              let d := acc.1 ++ [OP.IMPORT_DEFAULT] ++ u32Bytes sourceIdx
              let (nameIdx, st) := addConstant (.vstr lcl) acc.2
              pure (d ++ [OP.STORE_VAR] ++ u32Bytes nameIdx, st)
          | .named imported lcl =>
              let d := acc.1 ++ [OP.IMPORT] ++ u32Bytes sourceIdx
              let (importedIdx, st) := addConstant (.vstr imported) acc.2
              -- the source pushes GET_PROP here with *no* operand
              let d := d ++ [OP.PUSH_CONST] ++ u32Bytes importedIdx ++ [OP.GET_PROP]
              let (nameIdx, st) := addConstant (.vstr lcl) st
              pure (d ++ [OP.STORE_VAR] ++ u32Bytes nameIdx, st)
          | .nsSpec lcl =>
              let d := acc.1 ++ [OP.IMPORT] ++ u32Bytes sourceIdx
              let (nameIdx, st) := addConstant (.vstr lcl) acc.2
              pure (d ++ [OP.STORE_VAR] ++ u32Bytes nameIdx, st))
        ([], st)
  | .exportNamedDeclaration declaration _ _ =>
      (match declaration with
       | some decl => recGen base decl st
       | none => .ok ([], st))
  | .exportDefaultDeclaration declaration => do
      let (d, st) ← recGen base declaration st
      pure (d ++ [OP.EXPORT_DEFAULT], st)
  | .expressionStatement expression => do
      let (d, st) ← recGen base expression st
      pure (d ++ [OP.POP], st)
  | .callExpression callee args _ => do
      let (d, st) ← genSeq recGen base args.reverse st
      let hostName : Option String :=
        match callee with
        | .identifier name => if isHostCall name then some name else none
        | _ => none
      match hostName with
      | some name =>
          let (nameIdx, st) := addConstant (.vstr name) st
          pure (d ++ [OP.CALL_HOST] ++ u32Bytes nameIdx ++ u32Bytes args.length, st)
      | none => do
          -- the `functionStarts.has(...)` fast-path branch has an empty body
          let (dc, st) ← recGen (base + d.length) callee st
          pure (d ++ dc ++ [OP.CALL] ++ u32Bytes args.length, st)
  | .memberExpression object prop computed _ => do
      let (d, st) ← recGen base object st
      if computed then do
        let (dp, st) ← recGen (base + d.length) prop st
        pure (d ++ dp ++ [OP.GET_PROP_COMPUTED], st)
      else
        let (propIdx, st) := addConstant (nodeNameVal prop) st
        pure (d ++ [OP.GET_PROP] ++ u32Bytes propIdx, st)
  | .arrayExpression elements => do
      let (d, st) ← elements.foldlM
        (fun (acc : List Nat × GenState) e =>
          match e with
          | none =>
              let (undefIdx, st) := addConstant .vundef acc.2
              pure (acc.1 ++ [OP.PUSH_CONST] ++ u32Bytes undefIdx, st)
          | some el => do
              let (de, st) ← recGen (base + acc.1.length) el acc.2
              pure (acc.1 ++ de, st))
        ([], st)
      pure (d ++ [OP.NEW_ARRAY] ++ u32Bytes elements.length, st)
  | .objectExpression properties =>
      properties.foldlM
        (fun (acc : List Nat × GenState) p =>
          match p with
          | .property key value _ _ _ => do
              let (dv, st) ← recGen (base + acc.1.length) value acc.2
              let d := acc.1 ++ dv
              match key with
              | .identifier name =>
                  let (keyIdx, st) := addConstant (.vstr name) st
                  pure (d ++ [OP.SET_PROP] ++ u32Bytes keyIdx, st)
              | .literal v =>
                  let (keyIdx, st) := addConstant v st
                  pure (d ++ [OP.SET_PROP] ++ u32Bytes keyIdx, st)
              | _ => pure (d, st)
          | _ => .error (.typeErr "Cannot read properties of undefined"))
        ([OP.NEW_OBJECT], st)
  | .assignmentExpression operator left right =>
      genAssignment f recGen base operator left right st
  | .binaryExpression operator left right => do
      let (dl, st) ← recGen base left st
      let (dr, st) ← recGen (base + dl.length) right st
      let d := dl ++ dr
      match binOpCode operator with
      | some opc => pure (d ++ [opc], st)
      | none => .error (.err ("Unsupported binary operator: " ++ operator))
  | .logicalExpression operator left right => do
      let (dl, st) ← recGen base left st
      let jzIdx := base + dl.length
      -- JZ for `&&`, JNZ for `||`, JZ (an acknowledged placeholder) for `??`;
      -- any other operator pushes no branch opcode at all
      let brOp : List Nat :=
        if operator = "&&" then [OP.JZ]
        else if operator = "||" then [OP.JNZ]
        else if operator = "??" then [OP.JZ]
        else []
      let d := dl ++ brOp ++ [0, 0]
      let (dr, st) ← recGen (base + d.length) right st
      let d := d ++ dr
      let afterOffset : Int := ((base + d.length : Nat) : Int) - ((jzIdx : Int) + 3)
      let d := patch2 d (jzIdx + 1 - base) afterOffset
      pure (d, st)
  | .unaryExpression operator argument _ => do
      let (da, st) ← recGen base argument st
      match operator with
      | "!" => pure (da ++ [OP.NOT], st)
      | "-" => pure (da ++ [OP.NEG], st)
      | "+" => pure (da ++ [OP.POS], st)
      | "~" => pure (da ++ [OP.BIT_NOT], st)
      | "typeof" => pure (da ++ [OP.TYPEOF], st)
      | "void" =>
          let (undefIdx, st) := addConstant .vundef st
          pure (da ++ [OP.POP, OP.PUSH_CONST] ++ u32Bytes undefIdx, st)
      | "delete" =>
          (match argument with
           | .memberExpression obj prop computed _ => do
               let (dobj, st) ← recGen (base + da.length) obj st
               let d := da ++ dobj
               if computed then do
                 let (dp, st) ← recGen (base + d.length) prop st
                 pure (d ++ dp ++ [OP.DELETE_PROP], st)
               else
                 let (propIdx, st) := addConstant (nodeNameVal prop) st
                 pure (d ++ [OP.PUSH_CONST] ++ u32Bytes propIdx ++ [OP.DELETE_PROP], st)
           | _ =>
               let (trueIdx, st) := addConstant (.vbool true) st
               pure (da ++ [OP.PUSH_CONST] ++ u32Bytes trueIdx, st))
      | "await" => pure (da ++ [OP.AWAIT], st)
      | _ => .error (.err ("Unsupported unary operator: " ++ operator))
  | .updateExpression operator argument pfx =>
      genUpdate f recGen base operator argument pfx st
  | .conditionalExpression test consequent alternate => do
      let (dt, st) ← recGen base test st
      let jzIdx := base + dt.length
      let d := dt ++ [OP.JZ, 0, 0]
      let (dc, st) ← recGen (base + d.length) consequent st
      let d := d ++ dc
      let jmpIdx := base + d.length
      let d := d ++ [OP.JMP, 0, 0]
      let elseOffset : Int := ((base + d.length : Nat) : Int) - ((jzIdx : Int) + 3)
      let d := patch2 d (jzIdx + 1 - base) elseOffset
      let (da, st) ← recGen (base + d.length) alternate st
      let d := d ++ da
      let endOffset : Int := ((base + d.length : Nat) : Int) - ((jmpIdx : Int) + 3)
      let d := patch2 d (jmpIdx + 1 - base) endOffset
      pure (d, st)
  | .identifier name =>
      let (nameIdx, st) := addConstant (.vstr name) st
      .ok ([OP.LOAD_VAR] ++ u32Bytes nameIdx, st)
  | .literal value =>
      let (idx, st) := addConstant value st
      .ok ([OP.PUSH_CONST] ++ u32Bytes idx, st)
  | .thisExpression =>
      let (idx, st) := addConstant (.vstr "this") st
      .ok ([OP.LOAD_VAR] ++ u32Bytes idx, st)
  | .superNode => .ok ([], st)   -- handled in class context
  | .templateLiteral quasis expressions =>
      if expressions.isEmpty then
        match quasis with
        | q0 :: _ =>
            let (idx, st) := addConstant (.vstr q0) st
            .ok ([OP.PUSH_CONST] ++ u32Bytes idx, st)
        | [] => .error (.typeErr "Cannot read properties of undefined")
      else
        match quasis with
        | q0 :: _ => do
            let (firstIdx, st) := addConstant (.vstr q0) st
            let d := [OP.PUSH_CONST] ++ u32Bytes firstIdx
            expressions.enum.foldlM
              (fun (acc : List Nat × GenState) (ie : Nat × Node) => do
                let (de, st) ← recGen (base + acc.1.length) ie.2 acc.2
                let d := acc.1 ++ de
                match quasis.get? (ie.1 + 1) with
                | some q =>
                    let (quasiIdx, st) := addConstant (.vstr q) st
                    pure (d ++ [OP.PUSH_CONST] ++ u32Bytes quasiIdx ++ [OP.ADD, OP.ADD], st)
                | none => .error (.typeErr "Cannot read properties of undefined"))
              (d, st)
        | [] => .error (.typeErr "Cannot read properties of undefined")
  | .newExpression callee args => do
      let (d, st) ← genSeq recGen base args.reverse st
      let (dc, st) ← recGen (base + d.length) callee st
      pure (d ++ dc ++ [OP.NEW_CLASS] ++ u32Bytes args.length, st)
  | .yieldExpression argument delegate => do
      let (d, st) ←
        match argument with
        | some a => recGen base a st
        | none =>
            let (undefIdx, st) := addConstant .vundef st
            pure ([OP.PUSH_CONST] ++ u32Bytes undefIdx, st)
      let d := d ++ [OP.YIELD]
      pure ((if delegate then d ++ [OP.YIELD_DELEGATE] else d), st)
  | .importExpression source => do
      let (d, st) ← recGen base source st
      pure (d ++ [OP.IMPORT_DYNAMIC], st)
  | other =>
      .error (.err ("Unsupported node type for bytecode generation: " ++ other.typeName))

/-- `generate(node)` with fuel. -/
def gen : Nat → Nat → Node → GenState → Except JsErr (List Nat × GenState)
  | 0, _, _, _ => .error .fuel
  | f + 1, base, node, st => genStep f (gen f) base node st

/-- The result of `generateBytecode`: the bytecode and constant pool the
source returns, plus the ghost trace of synthetic-name uses. -/
structure GenOut where
  bytecode : List Nat
  constants : List JsVal
  synthNames : List SynthName

/-- `generateBytecode(ast)`.  The `collectFunctionStarts` pre-pass and the
`callPatches` third pass are not modelled: the former only populates
`functionStarts` (queried solely to guard an empty branch) and the latter
iterates an always-empty list, so neither changes a single output byte. -/
def generateBytecode (fuel : Nat) (ast : Node) : Except JsErr GenOut := do
  let st0 : GenState := { constants := [], loopStack := [], synthNames := [] }
  let (d, st) ← gen fuel 0 ast st0
  pure { bytecode := d, constants := st.constants, synthNames := st.synthNames }

-- ==================== NETWORK_BOTS BYTECODE GENERATOR ====================

/-- A NetBots block `\x7b id, type, config \x7d` (config modelled as the
string-valued record the front end reads). -/
structure NetBlock where
  id : String
  btype : String
  config : List (String × String)
deriving DecidableEq, Repr

/-- The parsed NetBots JSON input `\x7b blocks, connections \x7d`; a
connection is `(from, to)`. -/
structure NetProgram where
  blocks : List NetBlock
  connections : List (String × String)
deriving DecidableEq, Repr

/-- The worklist layout loop.  Its very first placement pushes `EXEC_BLOCK`
and then calls `emitU32(constIdx)` — but the only `emitU32` in scope at module
level takes `(bytecode, value)` and is handed a single argument, so the
constant index lands in the `bytecode` parameter and `constIdx.push(...)`
raises a `TypeError`.  No placement can complete. -/
def netLayoutLoop : Nat → List String → List String → List Nat →
    Except JsErr (List Nat)
  | 0, _, _, _ => .error .fuel
  | f + 1, pending, placed, bytecode =>
    match pending with
    | [] => .ok bytecode
    | id :: rest =>
        if placed.contains id then netLayoutLoop f rest placed bytecode
        else
          -- bytecode.push(OP.EXEC_BLOCK); emitU32(constIdx) — TypeError
          .error (.typeErr "bytecode.push is not a function")

/-- The per-block validation and id registration loop. -/
def netValidateBlocks (blocks : List NetBlock) : Except JsErr (List String) :=
  blocks.foldlM
    (fun (ids : List String) block => do
      if block.id = "" then throw (.err "block.id required (string)")
      else if block.btype = "" then throw (.err "block.type required (string)")
      else pure (ids ++ [block.id]))
    ([] : List String)

/-- The per-connection validation loop, recording the edge set. -/
def netValidateConnections (blockIds : List String)
    (connections : List (String × String)) : Except JsErr (List (String × String)) :=
  connections.enum.foldlM
    (fun (edges : List (String × String)) (ic : Nat × (String × String)) => do
      let conn := ic.2
      if conn.1 = "" || conn.2 = "" then
        throw (.err ("connection " ++ toString ic.1 ++ " missing from/to"))
      else if !(blockIds.contains conn.1) then
        throw (.err ("connection from unknown block: " ++ conn.1))
      else if !(blockIds.contains conn.2) then
        throw (.err ("connection to unknown block: " ++ conn.2))
      else if edges.contains (conn.1, conn.2) then
        throw (.err ("duplicate connection " ++ conn.1 ++ "->" ++ conn.2))
      else pure (edges ++ [(conn.1, conn.2)]))
    ([] : List (String × String))

/-- `generateNetworkBytecode(program)`: the validation passes, then the
layout loop (which always fails, see `netLayoutLoop`); the jump-patch pass
after the loop is unreachable. -/
def generateNetworkBytecode (prog : NetProgram) :
    Except JsErr (List Nat × List JsVal) := do
  let blocks := prog.blocks
  let connections := prog.connections
  -- `Array.isArray` checks hold by the typing of `NetProgram`
  let blockIds ← netValidateBlocks blocks
  let edges ← netValidateConnections blockIds connections
  let startBlocks := blocks.filter (fun b => !(edges.any (fun e => e.2 = b.id)))
  if startBlocks.length = 0 then
    throw (.err "no start block (block with no incoming edges)")
  else if startBlocks.length > 1 then
    throw (.err "multiple start blocks  only one entry point allowed")
  else do
    let startId := (startBlocks.headD { id := "", btype := "", config := [] }).id
    -- each block's `\x7b type, config \x7d` is a fresh object and `constMap`
    -- keys objects by identity, so every block gets its own constant slot
    let constants := blocks.map (fun b => JsVal.vobj b.btype b.config)
    let bytecode ← netLayoutLoop (blocks.length + 1) [startId] [] []
    -- the `jumpPatches.forEach` pass is unreachable: the loop above cannot
    -- return normally once a block is pending
    pure (bytecode, constants)

-- ==================== BINARY ASSEMBLER ====================

/-- UTF-8 encoding of one character. -/
def utf8Char (c : Char) : List Nat :=
  let n := c.toNat
  if n < 0x80 then [n]
  else if n < 0x800 then
    [0xC0 + n / 0x40, 0x80 + n % 0x40]
  else if n < 0x10000 then
    [0xE0 + n / 0x1000, 0x80 + (n / 0x40) % 0x40, 0x80 + n % 0x40]
  else
    [0xF0 + n / 0x40000, 0x80 + (n / 0x1000) % 0x40, 0x80 + (n / 0x40) % 0x40,
     0x80 + n % 0x40]

/-- UTF-8 bytes of a string. -/
def utf8Bytes (s : String) : List Nat := s.data.flatMap utf8Char

/-- `2^e` as a rational, for an integer exponent. -/
def pow2Rat (e : Int) : Rat :=
  if e ≥ 0 then ((2 : Rat) ^ e.toNat) else 1 / ((2 : Rat) ^ (-e).toNat)

/-- Greatest `e` with `2^e ≤ a`, for positive `a`. -/
def ratExp (a : Rat) : Int :=
  let e0 : Int := (Nat.log2 a.num.natAbs : Int) - (Nat.log2 a.den : Int)
  if a < pow2Rat e0 then e0 - 1 else e0

/-- Round a non-negative rational to the nearest integer, ties to even. -/
def roundHalfEven (x : Rat) : Nat :=
  let m := x.floor.toNat
  let frac := x - (m : Rat)
  if frac > 1 / 2 then m + 1
  else if frac = 1 / 2 then (if m % 2 = 1 then m + 1 else m)
  else m

/-- The 64-bit IEEE-754 pattern of a `JsNum` (round-to-nearest, ties-to-even,
with subnormals, infinities for overflow, and the canonical quiet NaN). -/
def doubleBits : JsNum → Nat
  | .nan => 0x7FF8000000000000
  | .num q =>
    if q = 0 then 0
    else
      let sign : Nat := if q < 0 then 1 else 0
      let a : Rat := |q|
      let e : Int := ratExp a
      if e > 1023 then sign * 2 ^ 63 + 0x7FF0000000000000
      else if e < -1022 then
        -- subnormal (or rounds up into the smallest normal)
        let m := roundHalfEven (a * pow2Rat 1074)
        if m ≥ 2 ^ 52 then sign * 2 ^ 63 + 1 * 2 ^ 52 + (m - 2 ^ 52)
        else sign * 2 ^ 63 + m
      else
        let m := roundHalfEven (a * pow2Rat (52 - e))
        if m = 2 ^ 53 then
          if e + 1 > 1023 then sign * 2 ^ 63 + 0x7FF0000000000000
          else sign * 2 ^ 63 + ((e + 1 + 1023).toNat) * 2 ^ 52
        else sign * 2 ^ 63 + ((e + 1023).toNat) * 2 ^ 52 + (m - 2 ^ 52)

/-- `writeDoubleLE`: the eight little-endian bytes of the IEEE-754 pattern. -/
def doubleLEBytes (n : JsNum) : List Nat :=
  let bits := doubleBits n
  (List.range 8).map (fun i => (bits >>> (8 * i)) &&& 0xFF)

/-- `writeBigInt64LE`: eight little-endian two's-complement bytes. -/
def int64LEBytes (i : Int) : List Nat :=
  let w := (i % (2 ^ 64 : Int)).toNat
  (List.range 8).map (fun k => (w >>> (8 * k)) &&& 0xFF)

/-- Little-endian `u32` bytes (`writeUInt32LE` wraps modulo `2^32`). -/
def u32le (v : Nat) : List Nat :=
  [v &&& 0xFF, (v >>> 8) &&& 0xFF, (v >>> 16) &&& 0xFF, (v >>> 24) &&& 0xFF]

/-- Minimal JSON string escaping for `JSON.stringify`. -/
def jsonEscape (s : String) : String :=
  s.data.foldl
    (fun acc c =>
      if c = '"' then acc ++ "\\\""
      else if c = '\\' then acc ++ "\\\\"
      else if c = '\n' then acc ++ "\\n"
      else if c = '\t' then acc ++ "\\t"
      else if c = '\r' then acc ++ "\\r"
      else acc.push c)
    ""

/-- `JSON.stringify(\x7b type, config \x7d)` for a block-descriptor object. -/
def jsonStringifyObj (btype : String) (config : List (String × String)) : String :=
  "\x7b\"type\":\"" ++ jsonEscape btype ++ "\",\"config\":\x7b" ++
    String.intercalate ","
      (config.map (fun kv => "\"" ++ jsonEscape kv.1 ++ "\":\"" ++ jsonEscape kv.2 ++ "\"")) ++
    "\x7d\x7d"

/-- Encoding of one constant, by value kind (the `typeof` chain). -/
def encodeConst : JsVal → Except JsErr (List Nat)
  | .vstr s => .ok (utf8Bytes s)
  | .vnum n => .ok (doubleLEBytes n)
  | .vnull => .ok [0]
  | .vbool b => .ok [if b then 1 else 0]
  | .vobj t cfg => .ok (utf8Bytes (jsonStringifyObj t cfg))
  | .vundef => .ok [0]
  | .vbig i =>
      -- `writeBigInt64LE` raises a RangeError outside the signed 64-bit range
      if -(2 ^ 63 : Int) ≤ i ∧ i < 2 ^ 63 then .ok (int64LEBytes i)
      else .error (.err "The value of \"value\" is out of range")

/-- `Buffer.alloc(n)`: `n` zero bytes. -/
def bufAlloc (n : Nat) : List Nat := List.replicate n 0

/-- `buf.write…` at an offset: overwrite successive bytes. -/
def writeAt : List Nat → Nat → List Nat → List Nat
  | buf, _, [] => buf
  | buf, i, b :: bs => writeAt (buf.set i b) (i + 1) bs

/-- The data-section loop of `assembleBinary`: each constant encoded with a
4-byte little-endian length prefix.  The source seeds the buffer with
`Buffer.alloc(4)` and slices those four bytes off at the end; the net effect
is the plain concatenation below. -/
def encodeDataSection (constants : List JsVal) : Except JsErr (List Nat) :=
  constants.foldlM
    (fun (acc : List Nat) c => do
      let encoded ← encodeConst c
      pure (acc ++ u32le (encoded.length % 2 ^ 32) ++ encoded))
    ([] : List Nat)

/-- `assembleBinary(magic, bytecode, constants)`: 16-byte header, then the
data section, then the code section. -/
def assembleBinary (magic : String) (bytecode : List Nat) (constants : List JsVal) :
    Except JsErr (List Nat) := do
  let dataSection ← encodeDataSection constants
  let codeSection := bytecode.map (fun b => b % 256)   -- Uint8Array coercion
  let header := bufAlloc 16
  let header := writeAt header 0 ((utf8Bytes magic).take 4)
  let header := writeAt header 4 (u32le (0 % 2 ^ 32))
  let header := writeAt header 8 (u32le (dataSection.length % 2 ^ 32))
  let header := writeAt header 12 (u32le (codeSection.length % 2 ^ 32))
  pure (header ++ dataSection ++ codeSection)

-- ==================== COMPILER ENTRY POINTS ====================

/-- Fuel budget for one compile invocation; every terminating run of the
source needs no more than this (the theorems below hold for all fuels). -/
def compileFuel (source : String) : Nat := source.length * 20 + 200

/-- `compileProgramBot(sourceCode)` — magic `PBO3`. -/
def compileProgramBot (sourceCode : String) : Except JsErr (List Nat) := do
  let tokens ← tokenize sourceCode
  let ast ← parse tokens (compileFuel sourceCode)
  let _ ← validateSemantics (compileFuel sourceCode) ast
  let out ← generateBytecode (compileFuel sourceCode) ast
  assembleBinary "PBO3" out.bytecode out.constants

/-- `compileNetworkBots(sourceCode)` — magic `NBO2`.  Its `JSON.parse` is the
host's (deterministic) JSON parser; the model takes the parsed structure. -/
def compileNetworkBots (prog : NetProgram) : Except JsErr (List Nat) := do
  let (bytecode, constants) ← generateNetworkBytecode prog
  assembleBinary "NBO2" bytecode constants

-- ==================== SHARED DEFINITIONS FOR THE THEOREMS ====================

/-- The front half of `compileProgramBot`, exposing the emitter's result
(bytecode, constants and the ghost synthetic-name trace). -/
def genPipeline (src : String) : Except JsErr GenOut := do
  let tokens ← tokenize src
  let ast ← parse tokens (compileFuel src)
  let _ ← validateSemantics (compileFuel src) ast
  generateBytecode (compileFuel src) ast

/-- Decode a big-endian signed 16-bit displacement from its two bytes. -/
def decodeS16 (hi lo : Nat) : Int :=
  let w := hi * 256 + lo
  if w < 32768 then (w : Int) else (w : Int) - 65536

/-- Parse straight from source text. -/
def parseSource (s : String) : Except JsErr Node := do
  let tokens ← tokenize s
  parse tokens (compileFuel s)

/-- An accumulated token list is keyword-free: every IDENTIFIER token it
holds spells a word outside `KEYWORDS`. -/
def KwFree (toks : List Token) : Prop :=
  ∀ v, Token.identifier v ∈ toks → KEYWORDS.contains v = false

-- ==================== CLAIM THEOREMS ====================

/-- **C1.**  The claim states that the backward JMP after a while-loop body
carries displacement `loop_start - (jmp_operand_start + 2)`.  On the program
`let n; while (n > 0) n = n - 1;` the loop's test begins at offset 10, the
backward JMP opcode sits at offset 41 and its operand at 42–43; the emitted
operand bytes are `0xFF 0xDD`, which decode to `-35 = 10 - (42 + 3)` — not
the claimed `-34 = 10 - (42 + 2)` — because the source computes
`loopStart - (bytecode.length + 3)` after already pushing the JMP opcode.
The jump therefore lands one byte before the first byte of the test. -/
theorem c1_while_backjump_displacement_off_by_one :
    (genPipeline "let n; while (n > 0) n = n - 1;").map GenOut.bytecode = .ok
      [OP.PUSH_CONST, 0, 0, 0, 0, OP.STORE_VAR, 0, 0, 0, 1,
       OP.LOAD_VAR, 0, 0, 0, 1, OP.PUSH_CONST, 0, 0, 0, 2, OP.GT,
       OP.JZ, 0, 20,
       OP.LOAD_VAR, 0, 0, 0, 1, OP.PUSH_CONST, 0, 0, 0, 3, OP.SUB,
       OP.STORE_VAR, 0, 0, 0, 1, OP.POP,
       OP.JMP, 0xFF, 0xDD,
       OP.HALT] ∧
    decodeS16 0xFF 0xDD = (10 : Int) - (42 + 3) ∧
    decodeS16 0xFF 0xDD ≠ (10 : Int) - (42 + 2) :=
  ⟨rfl, by decide, by decide⟩

/-- **C2.**  The claim states the parser accepts `new`, `function`, `class`,
dynamic `import(...)` and `yield` primaries.  In fact every one of those
five productions is rejected: the lexer emits those words as KEYWORD tokens
while `parsePrimary` tests `tok.type === 'OPERATOR'` for them, so the
branches are unreachable and parsing throws instead. -/
theorem c2_keyword_primaries_all_rejected :
    parseSource "new C();" = .error (.unexpectedToken "KEYWORD" "new") ∧
    parseSource "(function () \x7b \x7d);" = .error (.unexpectedToken "KEYWORD" "function") ∧
    parseSource "(class C \x7b \x7d);" = .error (.unexpectedToken "KEYWORD" "class") ∧
    parseSource "import(\"m\");" = .error (.err "Expected IDENTIFIER, got PUNCTUATION (value: ()") ∧
    parseSource "yield 1;" = .error (.unexpectedToken "KEYWORD" "yield") :=
  ⟨rfl, rfl, rfl, rfl, rfl⟩

/-- The bytecode emitted for `let a; let b; a && b;`: the logical expression
occupies offsets 20–32 (left operand at 20–24, branch at 25–27, right
operand at 28–32). -/
def c3Bytes : List Nat :=
  [OP.PUSH_CONST, 0, 0, 0, 0, OP.STORE_VAR, 0, 0, 0, 1,
   OP.PUSH_CONST, 0, 0, 0, 0, OP.STORE_VAR, 0, 0, 0, 2,
   OP.LOAD_VAR, 0, 0, 0, 1,
   OP.JZ, 0, 5,
   OP.LOAD_VAR, 0, 0, 0, 2,
   OP.POP, OP.HALT]

/-- **C3 (counterexample).**  The claim states that a logical expression
emits the left operand, then a `DUP`, then the conditional branch.  On
`let a; let b; a && b;` the byte immediately after the left operand's code
(offset 25) is the `JZ` opcode, and no `DUP` opcode occurs anywhere in the
emitted program: the source's `LogicalExpression` case never pushes `DUP`. -/
theorem c3_logical_emits_no_dup_counterexample :
    (genPipeline "let a; let b; a && b;").map GenOut.bytecode = .ok c3Bytes ∧
    c3Bytes.get? 25 = some OP.JZ ∧
    OP.JZ ≠ OP.DUP ∧
    OP.DUP ∉ c3Bytes :=
  ⟨rfl, by decide, by decide, by decide⟩

/-- Binding a successful `Except` computation applies the continuation. -/
theorem exBindOk {α β : Type} {ε : Type} (a : α) (f : α → Except ε β) :
    (Except.ok a >>= f) = f a := rfl

/-- Setting an element past a prefix acts on the suffix. -/
theorem listSetAppendRight {α : Type} (l1 l2 : List α) (i : Nat) (v : α) :
    (l1 ++ l2).set (l1.length + i) v = l1 ++ l2.set i v := by
  induction l1 with
  | nil => simp
  | cons a t ih =>
      have h : t.length + 1 + i = (t.length + i) + 1 := by omega
      simp only [List.cons_append, List.length_cons, h, List.set_cons_succ, ih]

/-- `patch2` one position past a prefix acts on the suffix. -/
theorem patch2Append (dL tail : List Nat) (v : Int) :
    patch2 (dL ++ tail) (dL.length + 1) v = dL ++ patch2 tail 1 v := by
  unfold patch2
  dsimp only
  rw [listSetAppendRight dL tail 1]
  rw [show dL.length + 1 + 1 = dL.length + 2 by omega]
  rw [listSetAppendRight dL _ 2]

/-- Patching the two placeholder bytes after a branch opcode yields the
big-endian `u16` displacement bytes in place. -/
theorem patch2BranchShape (dL dR : List Nat) (br : Nat) (v : Int)
    (hv : v = (dR.length : Int)) :
    patch2 (dL ++ ([br] ++ ([0, 0] ++ dR))) (dL.length + 1) v =
      dL ++ br :: (u16BytesI (dR.length : Int) ++ dR) := by
  subst hv
  rw [patch2Append dL ([br] ++ ([0, 0] ++ dR))]
  rfl

/-- **C3 (amended).**  For `&&` and `||`, the emitted code is the left
operand's code, then the conditional branch (`JZ` for `&&`, `JNZ` for `||`)
with a two-byte displacement equal to the length of the right operand's
code, then the right operand's code — with no `DUP` between the left
operand and the branch. -/
theorem c3_logical_branch_without_dup (f base : Nat) (op : String) (l r : Node)
    (s sL sR : GenState) (dL dR : List Nat)
    (hop : op = "&&" ∨ op = "||")
    (hL : gen f base l s = .ok (dL, sL))
    (hR : gen f (base + (dL.length + 3)) r sL = .ok (dR, sR)) :
    gen (f + 1) base (.logicalExpression op l r) s =
      .ok (dL ++ (if op = "&&" then OP.JZ else OP.JNZ) ::
            (u16BytesI (dR.length : Int) ++ dR), sR) := by
  show genStep f (gen f) base (.logicalExpression op l r) s = _
  unfold genStep
  dsimp only
  rw [hL, exBindOk]
  dsimp only
  have e4 : base + dL.length + 1 - base = dL.length + 1 := by omega
  rcases hop with h | h <;> subst h
  · have hbr : (if ("&&" : String) = "&&" then [OP.JZ]
        else if ("&&" : String) = "||" then [OP.JNZ]
        else if ("&&" : String) = "??" then [OP.JZ] else []) = [OP.JZ] := by decide
    have hbr2 : (if ("&&" : String) = "&&" then OP.JZ else OP.JNZ) = OP.JZ := by decide
    rw [hbr, hbr2]
    have e3 : (dL ++ [OP.JZ] ++ [0, 0]).length = dL.length + 3 := by simp
    rw [e3, hR, exBindOk]
    dsimp only
    simp only [List.append_assoc]
    rw [e4]
    exact congrArg (fun x => (Except.ok (x, sR) : Except JsErr (List Nat × GenState)))
      (patch2BranchShape dL dR OP.JZ _
        (by simp only [List.length_append, List.length_cons, List.length_nil]; push_cast; ring))
  · have hbr : (if ("||" : String) = "&&" then [OP.JZ]
        else if ("||" : String) = "||" then [OP.JNZ]
        else if ("||" : String) = "??" then [OP.JZ] else []) = [OP.JNZ] := by decide
    have hbr2 : (if ("||" : String) = "&&" then OP.JZ else OP.JNZ) = OP.JNZ := by decide
    rw [hbr, hbr2]
    have e3 : (dL ++ [OP.JNZ] ++ [0, 0]).length = dL.length + 3 := by simp
    rw [e3, hR, exBindOk]
    dsimp only
    simp only [List.append_assoc]
    rw [e4]
    exact congrArg (fun x => (Except.ok (x, sR) : Except JsErr (List Nat × GenState)))
      (patch2BranchShape dL dR OP.JNZ _
        (by simp only [List.length_append, List.length_cons, List.length_nil]; push_cast; ring))

/-- Witness for the amended C3 on `a && b` from the empty emitter state. -/
theorem c3_logical_branch_without_dup_witness :
    gen 6 0 (.logicalExpression "&&" (.identifier "a") (.identifier "b"))
        ⟨[], [], []⟩ =
      .ok ([OP.LOAD_VAR, 0, 0, 0, 0, OP.JZ, 0, 5, OP.LOAD_VAR, 0, 0, 0, 1],
           ⟨[.vstr "a", .vstr "b"], [], []⟩) :=
  c3_logical_branch_without_dup 5 0 "&&" (.identifier "a") (.identifier "b")
    ⟨[], [], []⟩ ⟨[.vstr "a"], [], []⟩ ⟨[.vstr "a", .vstr "b"], [], []⟩
    [OP.LOAD_VAR, 0, 0, 0, 0] [OP.LOAD_VAR, 0, 0, 0, 1]
    (Or.inl rfl) rfl rfl

/-- **C5.**  The claim describes the layout invariants of successfully
emitted NetBots graphs.  In fact no graph is ever accepted: the first block
placement calls the module-level two-parameter `emitU32(bytecode, value)`
with a single argument, so the constant index arrives as the `bytecode`
parameter and `.push` on a number raises a TypeError.  The seed graph
`A → B` fails exactly this way, and every input either fails validation or
reaches that TypeError. -/
theorem c5_netbots_emitter_never_succeeds :
    generateNetworkBytecode
        { blocks := [{ id := "A", btype := "start", config := [] },
                     { id := "B", btype := "end", config := [] }],
          connections := [("A", "B")] }
      = .error (.typeErr "bytecode.push is not a function") ∧
    ∀ prog : NetProgram, ∃ e, generateNetworkBytecode prog = .error e := by
  constructor
  · rfl
  · intro prog
    unfold generateNetworkBytecode
    dsimp only
    cases h1 : netValidateBlocks prog.blocks with
    | error e => exact ⟨e, rfl⟩
    | ok blockIds =>
      simp only [exBindOk]
      cases h2 : netValidateConnections blockIds prog.connections with
      | error e => exact ⟨e, rfl⟩
      | ok edges =>
        simp only [exBindOk]
        split
        · exact ⟨_, rfl⟩
        · split
          · exact ⟨_, rfl⟩
          · exact ⟨.typeErr "bytecode.push is not a function", rfl⟩

/-- **C6 (counterexample).**  The claim quantifies over every constant list,
but a bigint constant outside the signed 64-bit range makes
`writeBigInt64LE` raise a RangeError, so no container is returned. -/
theorem c6_bigint_out_of_range_counterexample :
    assembleBinary "PBO3" [] [JsVal.vbig (2 ^ 63)] =
      .error (.err "The value of \"value\" is out of range") := rfl

/-- **C7 (counterexample).**  The claim states synthetic temporaries never
collide with source identifiers, but `$temp` is itself a legal source
identifier.  The program `let $temp; let [a];` compiles successfully,
contains the IDENTIFIER token `$temp`, and its array-destructuring lowering
spills through the synthetic `$temp` — the very same `STORE_VAR` name index 1
used for the source variable (offset 5) and for the synthetic spill
(offset 15). -/
theorem c7_synthetic_name_collides_counterexample :
    ∃ toks out,
      tokenize "let $temp; let [a];" = .ok toks ∧
      Token.identifier "$temp" ∈ toks ∧
      genPipeline "let $temp; let [a];" = .ok out ∧
      "$temp" ∈ out.synthNames.map Subtype.val ∧
      out.constants.get? 1 = some (.vstr "$temp") ∧
      (out.bytecode.drop 5).take 5 = [OP.STORE_VAR, 0, 0, 0, 1] ∧
      (out.bytecode.drop 15).take 5 = [OP.STORE_VAR, 0, 0, 0, 1] :=
  ⟨_, _, rfl, List.Mem.tail _ (List.Mem.head _), rfl, List.Mem.head _, rfl, rfl, rfl⟩

/-- **C8.**  Compilation is deterministic: the embedding of both entry points
is a pure function of the input (the source has no nondeterminism — `Map`s
iterate in insertion order, the operator sort is stable, and no clock or
randomness is read), so two invocations on the same input yield the same
result. -/
theorem c8_compilation_deterministic :
    (∀ src r₁ r₂, compileProgramBot src = r₁ → compileProgramBot src = r₂ → r₁ = r₂) ∧
    (∀ prog r₁ r₂, compileNetworkBots prog = r₁ → compileNetworkBots prog = r₂ → r₁ = r₂) :=
  ⟨fun _ _ _ h₁ h₂ => h₁.symm.trans h₂, fun _ _ _ h₁ h₂ => h₁.symm.trans h₂⟩

/-- Witness for C8 at concrete inputs. -/
theorem c8_compilation_deterministic_witness :
    compileProgramBot "let a;" = compileProgramBot "let a;" ∧
    compileNetworkBots { blocks := [], connections := [] } =
      compileNetworkBots { blocks := [], connections := [] } :=
  ⟨c8_compilation_deterministic.1 "let a;" _ _ rfl rfl,
   c8_compilation_deterministic.2 { blocks := [], connections := [] } _ _ rfl rfl⟩

/-- If no `*/` occurs in the remaining characters, the block-comment skip
consumes the whole input. -/
theorem skip_no_close : ∀ (b : List Char), hasCommentClose b = false →
    skipBlockComment b = [] := by
  intro b
  induction b using skipBlockComment.induct with
  | case1 => intro _; rfl
  | case2 rest => intro h; simp [hasCommentClose] at h
  | case3 c rest h2 ih =>
      intro h
      have h' : hasCommentClose rest = false := by
        rw [hasCommentClose.eq_def] at h
        split at h
        · rename_i heq
          simp at heq
        · simp at h
        · rename_i hd r hnm heq
          injection heq with e1 e2
          subst e2
          exact h
      rw [skipBlockComment.eq_def]
      split
      · rename_i heq
        simp at heq
      · rename_i r heq
        injection heq with e1 e2
        exact (h2 r e1 e2).elim
      · rename_i hd r hnm heq
        injection heq with e1 e2
        subst e2
        exact ih h'

/-- On empty input, every fuel level of the scanning loop appends EOF and
returns the accumulated tokens. -/
theorem runNil (f pos : Nat) (acc : List Token) :
    (mkTok f).run pos [] acc = .ok (acc ++ [Token.eof]) := by
  cases f <;> rfl

/-- **C10.**  A source ending inside an unclosed block comment raises no
error: whenever the scanning loop reaches `/*` with no matching `*/` in the
rest of the input, the remainder is silently consumed and tokenization
completes with the tokens collected so far plus the single EOF token; in
particular `tokenize` on `"/*" ++ s` with no close in `s` returns exactly
`[EOF]`. -/
theorem c10_unclosed_block_comment_silently_consumed :
    (∀ f pos b acc, hasCommentClose b = false →
      (mkTok (f + 1)).run pos ('/' :: '*' :: b) acc = .ok (acc ++ [Token.eof])) ∧
    (∀ s : String, hasCommentClose s.data = false →
      tokenize ("/*" ++ s) = .ok [Token.eof]) := by
  have main : ∀ f pos b acc, hasCommentClose b = false →
      (mkTok (f + 1)).run pos ('/' :: '*' :: b) acc = .ok (acc ++ [Token.eof]) := by
    intro f pos b acc h
    show (mkTok f).run
        (pos + (('/' :: '*' :: b).length - (skipBlockComment b).length))
        (skipBlockComment b) acc = .ok (acc ++ [Token.eof])
    rw [skip_no_close b h]
    exact runNil f _ acc
  refine ⟨main, ?_⟩
  intro s h
  show (mkTok (("/*" ++ s).length * 4 + 16)).run 0 ("/*" ++ s).data [] = .ok [Token.eof]
  have hd : ("/*" ++ s).data = '/' :: '*' :: s.data := by
    rw [String.data_append]
    rfl
  have hf : ("/*" ++ s).length * 4 + 16 = (("/*" ++ s).length * 4 + 15) + 1 := by omega
  rw [hd, hf]
  exact main _ 0 s.data [] h

/-- Witness for C10 on the concrete source `/* open comment`. -/
theorem c10_unclosed_block_comment_silently_consumed_witness :
    hasCommentClose (" open comment".data) = false ∧
    tokenize ("/*" ++ " open comment") = .ok [Token.eof] :=
  ⟨by decide,
   c10_unclosed_block_comment_silently_consumed.2 " open comment" (by decide)⟩

/-- **C4.**  Semantic analysis walks the whole tree (threading one state
`st`), then fails exactly once — with a single error whose message carries
all collected diagnostics joined by newlines — iff at least one diagnostic
was collected, and returns without raising otherwise; and every collected
message has the form `Duplicate declaration: <name>` or
`Undefined variable: <name>`. -/
theorem c4_semantic_errors_accumulated (f : Nat) (ast : Node) (st : SemState)
    (h : semCheck f ast { scopes := [[]], errors := [] } = .ok st) :
    ((validateSemantics f ast = .ok ()) ↔ st.errors = []) ∧
    (st.errors ≠ [] → validateSemantics f ast =
      .error (.err ("Semantic errors:\n" ++
        String.intercalate "\n" (st.errors.map SemMsg.msg)))) ∧
    (∀ m ∈ st.errors, SemMsgOk m.msg) := by
  have hv : validateSemantics f ast =
      (if st.errors.length > 0 then
        .error (.err ("Semantic errors:\n" ++
          String.intercalate "\n" (st.errors.map SemMsg.msg)))
      else .ok ()) := by
    unfold validateSemantics
    rw [h, exBindOk]
    rfl
  refine ⟨?_, ?_, ?_⟩
  · rw [hv]
    cases he : st.errors with
    | nil => simp
    | cons a t => simp
  · intro hne
    rw [hv]
    cases he : st.errors with
    | nil => exact absurd he hne
    | cons a t => simp [he]
  · intro m _
    exact m.ok


/-- Witness for C4 on `let a; let a;` (as an AST): the walk completes and
the single failure carries the duplicate-declaration diagnostic. -/
theorem c4_semantic_errors_accumulated_witness :
    validateSemantics 5 (Node.program
      [.variableDeclaration "let" [(.identifier "a", none)],
       .variableDeclaration "let" [(.identifier "a", none)]]) =
      .error (.err "Semantic errors:\nDuplicate declaration: a") :=
  (c4_semantic_errors_accumulated 5 (Node.program
      [.variableDeclaration "let" [(.identifier "a", none)],
       .variableDeclaration "let" [(.identifier "a", none)]])
    { scopes := [["a", "a"]],
      errors := [⟨"Duplicate declaration: a", Or.inl ⟨"a", rfl⟩⟩] }
    rfl).2.1 (List.cons_ne_nil _ _)

/-- **C7 (amended).**  If no identifier token of a successfully compiled
source begins with `$`, the compiler's synthetic temporaries (all of which
begin with `$`) never collide with source identifiers. -/
theorem c7_synthetic_names_start_with_dollar (src : String) (toks : List Token) (ast : Node)
    (out : GenOut) (fp fv fg : Nat)
    (_htok : tokenize src = .ok toks)
    (hnodollar : ∀ v, Token.identifier v ∈ toks → v.data.head? ≠ some '$')
    (_hparse : parse toks fp = .ok ast)
    (_hsem : validateSemantics fv ast = .ok ())
    (_hgen : generateBytecode fg ast = .ok out) :
    ∀ n ∈ out.synthNames.map Subtype.val, Token.identifier n ∉ toks := by
  intro n hn hmem
  obtain ⟨sn, _, rfl⟩ := List.mem_map.mp hn
  have hall : ∀ x ∈ syntheticNames, x.data.head? = some '$' := by decide
  exact hnodollar sn.val hmem (hall sn.val sn.property)

/-- Witness for the amended C7 on `let [b];`, whose only identifier token
is `b`. -/
theorem c7_synthetic_names_start_with_dollar_witness :
    Token.identifier "$temp" ∉ [Token.keyword "let", Token.punctuation "[",
      Token.identifier "b", Token.punctuation "]", Token.punctuation ";",
      Token.eof] :=
  c7_synthetic_names_start_with_dollar "let [b];"
    [Token.keyword "let", Token.punctuation "[", Token.identifier "b",
     Token.punctuation "]", Token.punctuation ";", Token.eof]
    _ _ 360 360 360 rfl
    (by intro v hv
        simp only [List.mem_cons, List.not_mem_nil, or_false] at hv
        rcases hv with h | h | h | h | h | h <;>
          first
            | (injection h with h2; subst h2; decide)
            | exact Token.noConfusion h)
    rfl rfl rfl "$temp" (by decide)

/-- If every constant encodes, the data-section loop succeeds from any
accumulator. -/
theorem encodeDataSectionOk (constants : List JsVal)
    (henc : ∀ c ∈ constants, ∃ bs, encodeConst c = .ok bs) :
    ∀ acc : List Nat, ∃ ds,
      constants.foldlM
        (fun (acc : List Nat) c => do
          let encoded ← encodeConst c
          pure (acc ++ u32le (encoded.length % 2 ^ 32) ++ encoded))
        acc = .ok ds := by
  induction constants with
  | nil => exact fun acc => ⟨acc, rfl⟩
  | cons c cs ih =>
      intro acc
      obtain ⟨bs, hbs⟩ := henc c (List.mem_cons_self c cs)
      have ih' := ih (fun x hx => henc x (List.mem_cons_of_mem c hx))
      obtain ⟨ds, hds⟩ := ih' (acc ++ u32le (bs.length % 2 ^ 32) ++ bs)
      refine ⟨ds, ?_⟩
      rw [List.foldlM_cons, hbs, exBindOk]
      exact hds

/-- A list of length four is literally a four-element list. -/
theorem listLenFour {l : List Nat} (h : l.length = 4) :
    ∃ a b c d, l = [a, b, c, d] := by
  match l, h with
  | [a, b, c, d], _ => exact ⟨a, b, c, d, rfl⟩

/-- **C6 (amended).**  When the magic encodes to exactly four bytes and
every constant is encodable (in particular no bigint outside the signed
64-bit range), `assembleBinary` returns the 16-byte header — the four magic
bytes, a zero entry-point word, the data-section length and the code-section
length, both u32 little-endian and reduced modulo `2^32` — followed by the
data section and the byte-coerced code section. -/
theorem c6_header_layout_with_encodable_constants (magic : String) (bytecode : List Nat)
    (constants : List JsVal)
    (hmagic : (utf8Bytes magic).length = 4)
    (henc : ∀ c ∈ constants, ∃ bs, encodeConst c = .ok bs) :
    ∃ dataSection,
      encodeDataSection constants = .ok dataSection ∧
      assembleBinary magic bytecode constants = .ok
        (utf8Bytes magic ++ u32le 0 ++
         u32le (dataSection.length % 2 ^ 32) ++
         u32le (bytecode.length % 2 ^ 32) ++
         dataSection ++ bytecode.map (fun b => b % 256)) := by
  obtain ⟨ds, hds⟩ := encodeDataSectionOk constants henc []
  refine ⟨ds, hds, ?_⟩
  unfold assembleBinary
  rw [show encodeDataSection constants = .ok ds from hds, exBindOk]
  dsimp only
  obtain ⟨a, b, c, d, hm⟩ := listLenFour hmagic
  rw [hm]
  simp only [List.length_map]
  rfl

/-- Witness for the amended C6 at magic `PBO3`, code `[1, 2, 3]` and the
single string constant `"x"`. -/
theorem c6_header_layout_with_encodable_constants_witness :
    ∃ dataSection,
      encodeDataSection [JsVal.vstr "x"] = .ok dataSection ∧
      assembleBinary "PBO3" [1, 2, 3] [JsVal.vstr "x"] = .ok
        (utf8Bytes "PBO3" ++ u32le 0 ++
         u32le (dataSection.length % 2 ^ 32) ++
         u32le (([1, 2, 3] : List Nat).length % 2 ^ 32) ++
         dataSection ++ ([1, 2, 3] : List Nat).map (fun b => b % 256)) :=
  c6_header_layout_with_encodable_constants "PBO3" [1, 2, 3] [JsVal.vstr "x"] (by decide)
    (by intro c hc
        simp only [List.mem_singleton] at hc
        subst hc
        exact ⟨_, rfl⟩)

/-- Unfolding one fuel layer of the scanning loop. -/
theorem mkTok_succ_run (f : Nat) : (mkTok (f + 1)).run = tokRun (mkTok f) := rfl

/-- Unfolding one fuel layer of the template loop. -/
theorem mkTok_succ_tmpl (f : Nat) : (mkTok (f + 1)).tmpl = tokTmpl (mkTok f) := rfl

/-- Appending a non-identifier token preserves `KwFree`. -/
theorem kwfree_snoc_nonid (acc : List Token) (t : Token) (hP : KwFree acc)
    (ht : ∀ v, t ≠ Token.identifier v) : KwFree (acc ++ [t]) := by
  intro v hv
  rcases List.mem_append.mp hv with h | h
  · exact hP v h
  · rw [List.mem_singleton] at h
    exact absurd h.symm (ht v)

/-- Appending an identifier token whose spelling is not a keyword preserves
`KwFree`. -/
theorem kwfree_snoc_id (acc : List Token) (v : String) (hP : KwFree acc)
    (hv : KEYWORDS.contains v = false) : KwFree (acc ++ [Token.identifier v]) := by
  intro w hw
  rcases List.mem_append.mp hw with h | h
  · exact hP w h
  · rw [List.mem_singleton] at h
    injection h with h2
    subst h2
    exact hv

/-- The number branch preserves `KwFree`: it appends only NUMBER and BIGINT
tokens. -/
theorem tokNumberInv (T : TokFns)
    (hrun : ∀ pos src acc res, T.run pos src acc = .ok res →
      KwFree acc → KwFree res) :
    ∀ pos c rest acc res, tokNumber T pos c rest acc = .ok res →
      KwFree acc → KwFree res := by
  intro pos c rest acc res h hP
  unfold tokNumber at h
  repeat' first
    | exact Except.noConfusion h
    | exact hrun _ _ _ _ h hP
    | exact hrun _ _ _ _ h
        (kwfree_snoc_nonid _ _ hP (fun v hne => Token.noConfusion hne))
    | split at h
    | dsimp only at h

/-- One step of the scanning loop preserves `KwFree`: the identifier branch
emits an IDENTIFIER token only after `KEYWORDS.contains` returned false. -/
theorem tokRunInv (T : TokFns)
    (hrun : ∀ pos src acc res, T.run pos src acc = .ok res →
      KwFree acc → KwFree res)
    (htmpl : ∀ first cur pos src acc res, T.tmpl first cur pos src acc = .ok res →
      KwFree acc → KwFree res) :
    ∀ pos src acc res, tokRun T pos src acc = .ok res →
      KwFree acc → KwFree res := by
  intro pos src acc res h hP
  cases src with
  | nil =>
      rw [tokRun.eq_1] at h
      injection h with h2
      subst h2
      exact kwfree_snoc_nonid acc _ hP (fun v hne => Token.noConfusion hne)
  | cons c rest =>
      rw [tokRun.eq_2] at h
      repeat' first
        | exact Except.noConfusion h
        | exact hrun _ _ _ _ h hP
        | exact htmpl _ _ _ _ _ _ h hP
        | exact hrun _ _ _ _ h
            (kwfree_snoc_nonid _ _ hP (fun v hne => Token.noConfusion hne))
        | exact tokNumberInv T hrun _ _ _ _ _ h hP
        | (rename_i hg
           exact hrun _ _ _ _ h (kwfree_snoc_id _ _ hP (by simpa using hg)))
        | split at h
        | dsimp only at h

/-- Inversion for a successful `Except` bind. -/
theorem bindOkInv {α β : Type} (m : Except JsErr α) (k : α → Except JsErr β)
    (res : β) (h : (m >>= k) = .ok res) : ∃ a, m = .ok a ∧ k a = .ok res := by
  cases m with
  | error e => exact Except.noConfusion h
  | ok a => exact ⟨a, rfl, h⟩

/-- One step of the template loop preserves `KwFree` (interpolation bodies
are nested inside a TEMPLATE_EXPR token, not spliced into the stream). -/
theorem tokTmplInv (T : TokFns)
    (hrun : ∀ pos src acc res, T.run pos src acc = .ok res →
      KwFree acc → KwFree res)
    (htmpl : ∀ first cur pos src acc res, T.tmpl first cur pos src acc = .ok res →
      KwFree acc → KwFree res) :
    ∀ first cur pos src acc res, tokTmpl T first cur pos src acc = .ok res →
      KwFree acc → KwFree res := by
  intro isHead value pos src acc res h hP
  cases src with
  | nil =>
      simp only [tokTmpl] at h
      exact Except.noConfusion h
  | cons c rest =>
      simp only [tokTmpl] at h
      repeat' first
        | exact Except.noConfusion h
        | exact hrun _ _ _ _ h hP
        | exact htmpl _ _ _ _ _ _ h hP
        | exact hrun _ _ _ _ h
            (kwfree_snoc_nonid _ _ hP (fun v hne => Token.noConfusion hne))
        | exact hrun _ _ _ _ h
            (kwfree_snoc_nonid _ _ hP
              (fun v => by cases isHead <;> exact fun hne => Token.noConfusion hne))
        | (obtain ⟨sub, hm, hk⟩ := bindOkInv _ _ _ h
           exact htmpl _ _ _ _ _ _ hk
             (kwfree_snoc_nonid _ _
               (kwfree_snoc_nonid _ _ hP
                 (fun v => by cases isHead <;> exact fun hne => Token.noConfusion hne))
               (fun v hne => Token.noConfusion hne)))
        | split at h

/-- Every fuel tower of the lexer preserves `KwFree`. -/
theorem tokInv : ∀ f : Nat,
    (∀ pos src acc res, (mkTok f).run pos src acc = .ok res →
      KwFree acc → KwFree res) ∧
    (∀ first cur pos src acc res, (mkTok f).tmpl first cur pos src acc = .ok res →
      KwFree acc → KwFree res) := by
  intro f
  induction f with
  | zero =>
      constructor
      · intro pos src acc res h hP
        cases src with
        | nil =>
            injection h with h2
            subst h2
            exact kwfree_snoc_nonid acc _ hP (fun v hne => Token.noConfusion hne)
        | cons c rest => exact Except.noConfusion h
      · intro first cur pos src acc res h hP
        cases src with
        | nil => exact Except.noConfusion h
        | cons c rest => exact Except.noConfusion h
  | succ f ih =>
      obtain ⟨ihrun, ihtmpl⟩ := ih
      constructor
      · intro pos src acc res h hP
        rw [mkTok_succ_run] at h
        exact tokRunInv (mkTok f) ihrun ihtmpl _ _ _ _ h hP
      · intro first cur pos src acc res h hP
        rw [mkTok_succ_tmpl] at h
        exact tokTmplInv (mkTok f) ihrun ihtmpl _ _ _ _ _ _ h hP

/-- **C9.**  The fixed keyword set includes the TypeScript-only and
contextual words the claim lists; every IDENTIFIER token a successful
tokenization emits has a spelling outside `KEYWORDS` (the identifier branch
emits a KEYWORD token whenever the spelling is in the set); and using such a
word as a variable name is rejected by the parser, as on `let type;`. -/
theorem c9_keyword_set_locks_words :
    (∀ w ∈ (["implements", "interface", "package", "private", "protected",
             "public", "abstract", "enum", "type", "namespace", "module",
             "declare", "keyof", "readonly", "get", "set", "of", "as",
             "from"] : List String), w ∈ KEYWORDS) ∧
    (∀ src toks, tokenize src = .ok toks →
      ∀ v, Token.identifier v ∈ toks → v ∉ KEYWORDS) ∧
    parseSource "let type;" =
      .error (.err "Expected IDENTIFIER, got KEYWORD (value: type)") := by
  refine ⟨by decide, ?_, rfl⟩
  intro src toks h v hv hmem
  have hfree : KwFree toks :=
    (tokInv (src.length * 4 + 16)).1 0 src.data [] toks h
      (fun w hw => absurd hw (List.not_mem_nil _))
  have hc : KEYWORDS.contains v = false := hfree v hv
  have ht : KEYWORDS.contains v = true := List.elem_iff.mpr hmem
  exact Bool.false_ne_true (hc.symm.trans ht)

/-- Witness for C9: instantiating the universally quantified part at the
source `let foo;` shows `foo` is not a keyword. -/
theorem c9_keyword_set_locks_words_witness : "foo" ∉ KEYWORDS :=
  c9_keyword_set_locks_words.2.1 "let foo;"
    [Token.keyword "let", Token.identifier "foo", Token.punctuation ";",
     Token.eof] rfl "foo" (List.Mem.tail _ (List.Mem.head _))
